import Mathlib

/-!
Shallow embedding of the ahti-operator Database reconciliation loop.

The embedding follows the repository sources:
* `src/unnamed/part_003` — `DatabaseReconciler.Reconcile` (the engine);
* `src/unnamed/part_000` — `ReconcileFinalizer` (called `ReconcileDatabaseFinalizer`
  by the engine) and `DoFinalizerOperationsForDatabase`;
* `src/internal/controller/database_secret.go` — `ReconcileDatabaseSecrets`;
* `src/internal/controller/database_statefulset.go` (first version in the file) —
  `ReconcileStatefulSets`, `ConstructPrimaryStatefulSet`;
* `src/unnamed/part_002` (first version in the file) — `ReconcileService`,
  `ConstructService`;
* `src/internal/controller/database_ingress.go` — `ReconcileDatabaseIngress`,
  `ConstructDatabaseIngress`;
* `src/internal/controller/database_pvc.go` — `DeleteDatabasePVC`;
* `src/internal/utils/names.go` and the utils variant embedded in
  `src/config/samples/raw/sample-replica.yaml` — name derivations.

The Kubernetes store is modelled as an explicit cluster value holding the one
Database record and lists of child resources keyed by (namespace, name).  Store
writes consume an oracle of injected outcomes (`faults`); an empty oracle means
every write succeeds.  Get operations are modelled as infallible apart from
not-found, which is read off the store contents.
-/

/-- Kinds of store errors distinguished by the Go code via
`apierrors.IsNotFound` and `apierrors.IsConflict`. -/
inductive ErrKind where
  | notFound
  | conflict
  | fatal
deriving DecidableEq, Repr

/-- Observable events of one engine invocation, used to express ordering
properties: which child reconcilers ran, completion of the PVC cleanup, and
the persisted removal of the finalizer marker. -/
inductive Ev where
  | authSecretRec
  | statefulSetRec
  | serviceRec
  | ingressRec
  | pvcCleanupDone
  | finalizerRemoved
deriving DecidableEq, Repr

/-- corev1.EnvVar: name, literal value, and the optional
SecretKeyRef source flattened to (secret name, key). -/
structure EnvVar where
  name : String
  value : String
  valueFrom : Option (String × String)
deriving DecidableEq, Repr

/-- networkingv1.IngressTLS. -/
structure IngressTLS where
  hosts : List String
  secretName : String
deriving DecidableEq, Repr

/-- AhtiDatabaseIngressSpec from `src/api/v1/database_types.go`. -/
structure AhtiDatabaseIngressSpec where
  ingressClassName : Option String
  host : String
  tls : List IngressTLS
deriving DecidableEq, Repr

/-- DatabaseSpec from `src/api/v1/database_types.go` (the version with status
conditions).  The `env` field is Modelled from the spec: the current
`database_types.go` revision consumed by `ConstructPrimaryStatefulSet`
(which iterates `database.Spec.Env`) is absent from src/; the spec describes
it as a list of name/value(/valueFrom) overrides merged into the workload
environment.  `podExtra` likewise stands for the remaining pod-level
pass-through fields (node selector, tolerations, ...) that the construct
copies verbatim and no claim inspects. -/
structure DatabaseSpec where
  image : String
  imagePullPolicy : String
  auth : Bool
  storageSize : String
  resource : String
  ingress : Option AhtiDatabaseIngressSpec
  env : List EnvVar
  podExtra : String
deriving DecidableEq, Repr

/-- metav1.Condition restricted to the fields the code reads and writes
(`LastTransitionTime` and `ObservedGeneration` are not compared by any
branch the claims touch). -/
structure Condition where
  condType : String
  status : String
  reason : String
  message : String
deriving DecidableEq, Repr

/-- metav1.OwnerReference restricted to the four fields the code sets. -/
structure OwnerReference where
  apiVersion : String
  kind : String
  name : String
  uid : String
deriving DecidableEq, Repr

/-- The Database custom resource: identity, metadata consumed by the
controller (finalizers, deletion timestamp), spec and status conditions. -/
structure Database where
  name : String
  ns : String
  uid : String
  apiVersion : String
  kind : String
  finalizers : List String
  deletionTimestamp : Option Nat
  spec : DatabaseSpec
  conditions : List Condition
deriving DecidableEq, Repr

/-- corev1.Secret restricted to metadata and data. -/
structure Secret where
  name : String
  ns : String
  ownerReferences : List OwnerReference
  data : List (String × String)
deriving DecidableEq, Repr

/-- corev1.ContainerPort. -/
structure ContainerPort where
  containerPort : Nat
  protocol : String
  name : String
deriving DecidableEq, Repr

/-- A liveness / readiness probe: HTTPGet path and port. -/
structure Probe where
  path : String
  port : Nat
deriving DecidableEq, Repr

/-- corev1.VolumeMount. -/
structure VolumeMount where
  name : String
  mountPath : String
deriving DecidableEq, Repr

/-- The single container of the primary workload. -/
structure Container where
  image : String
  imagePullPolicy : String
  name : String
  resources : String
  ports : List ContainerPort
  env : List EnvVar
  livenessProbe : Probe
  readinessProbe : Probe
  volumeMounts : List VolumeMount
deriving DecidableEq, Repr

/-- A volume claim template of the workload. -/
structure PVCTemplate where
  name : String
  labels : List (String × String)
  accessModes : List String
  storageRequest : String
deriving DecidableEq, Repr

/-- appsv1.StatefulSet restricted to the fields the construct sets. -/
structure StatefulSet where
  name : String
  ns : String
  ownerReferences : List OwnerReference
  labels : List (String × String)
  selector : List (String × String)
  serviceName : String
  replicas : Nat
  templateLabels : List (String × String)
  podExtra : String
  container : Container
  volumeClaimTemplates : List PVCTemplate
deriving DecidableEq, Repr

/-- corev1.ServicePort. -/
structure ServicePort where
  port : Nat
  targetPort : Nat
  protocol : String
  name : String
deriving DecidableEq, Repr

/-- corev1.Service restricted to the fields the construct sets; a headless
service carries `clusterIP = some "None"`. -/
structure KSvc where
  name : String
  ns : String
  ownerReferences : List OwnerReference
  labels : List (String × String)
  ports : List ServicePort
  selector : List (String × String)
  clusterIP : Option String
deriving DecidableEq, Repr

/-- One HTTP path rule of an ingress. -/
structure HTTPIngressPath where
  path : String
  pathType : String
  backendService : String
  backendPort : Nat
deriving DecidableEq, Repr

/-- One host rule of an ingress. -/
structure IngressRule where
  host : String
  paths : List HTTPIngressPath
deriving DecidableEq, Repr

/-- networkingv1.Ingress restricted to the fields the construct sets. -/
structure Ingress where
  name : String
  ns : String
  ownerReferences : List OwnerReference
  labels : List (String × String)
  ingressClassName : Option String
  tls : List IngressTLS
  rules : List IngressRule
deriving DecidableEq, Repr

/-- corev1.PersistentVolumeClaim restricted to identity and labels. -/
structure PVC where
  name : String
  ns : String
  labels : List (String × String)
deriving DecidableEq, Repr

/-- The resource store: the one Database record under reconciliation and the
child resources, each kind in its own list keyed by (namespace, name). -/
structure Cluster where
  database : Option Database
  secrets : List Secret
  statefulSets : List StatefulSet
  services : List KSvc
  ingresses : List Ingress
  pvcs : List PVC
deriving DecidableEq, Repr

/-- Full execution state: the cluster, the oracle of injected write outcomes
(`none` = success; exhausted oracle = all writes succeed), the event trace,
a counter of successful status persists, a flag recording that some persist
of the record or its status hit a stale-version conflict, and the fresh-key
counter standing for the randomness of key generation. -/
structure St where
  cluster : Cluster
  faults : List (Option ErrKind)
  trace : List Ev
  statusWrites : Nat
  conflictOnPersist : Bool
  keyCtr : Nat
deriving DecidableEq, Repr

/-! ## Constants (src/unnamed/part_003 lines 38-52) -/

def databaseAPIVersion : String := "libsql.ahti.io/v1"
def databaseKind : String := "Database"
def databaseFinalizer : String := "libsql.ahti.io/finalizer"
def databaseLabel : String := "ahti.database.io/managed-by"
def databaseAppName : String := "ahti-database"
def typeAvailableDatabase : String := "Available"
def typeDegradedDatabase : String := "Degraded"

/-! ## Name derivations (internal/utils) -/

/-- utils.GetAuthSecretName. -/
def GetAuthSecretName (db : Database) : String := db.name ++ "-auth-key"

/-- utils.GetDatabasePVCName. -/
def GetDatabasePVCName (db : Database) : String := db.name ++ "-pvc"

/-- utils.GetDatabaseServiceName. -/
def GetDatabaseServiceName (db : Database) (headless : Bool) : String :=
  if headless then db.name ++ "-svc-headless" else db.name ++ "-svc"

/-- Modelled from the spec: utils.GetDatabaseIngressName is called by
`database_ingress.go` and the tests but its definition is absent from src/;
the spec says only that the ingress carries a derived canonical name tied to
the record name, so any fixed injective derivation is faithful. -/
def GetDatabaseIngressName (db : Database) : String := db.name ++ "-ingress"

/-! ## Generic keyed-list store helpers -/

/-- Replace the first element satisfying the predicate. -/
def replaceFirst (p : α → Bool) (v : α) : List α → List α
  | [] => []
  | x :: xs => if p x then v :: xs else x :: replaceFirst p v xs

def secretKey (ns name : String) (s : Secret) : Bool := s.name = name && s.ns = ns
def stsKey (ns name : String) (s : StatefulSet) : Bool := s.name = name && s.ns = ns
def svcKey (ns name : String) (s : KSvc) : Bool := s.name = name && s.ns = ns
def ingKey (ns name : String) (i : Ingress) : Bool := i.name = name && i.ns = ns
def pvcKey (ns name : String) (p : PVC) : Bool := p.name = name && p.ns = ns

/-- Get of a Secret: the store lookup behind `r.Get` for secrets. -/
def findSecret (c : Cluster) (ns name : String) : Option Secret :=
  c.secrets.find? (secretKey ns name)

def findStatefulSet (c : Cluster) (ns name : String) : Option StatefulSet :=
  c.statefulSets.find? (stsKey ns name)

def findService (c : Cluster) (ns name : String) : Option KSvc :=
  c.services.find? (svcKey ns name)

def findIngress (c : Cluster) (ns name : String) : Option Ingress :=
  c.ingresses.find? (ingKey ns name)

/-! ## Oracle-driven store writes -/

/-- Pop the next injected write outcome; an exhausted oracle yields success. -/
def popFault (st : St) : Option ErrKind × St :=
  match st.faults with
  | [] => (none, st)
  | f :: rest => (f, { st with faults := rest })

/-- A fallible write of a child resource: on success apply the mutation to the
cluster, on an injected error leave the cluster untouched and surface it. -/
def writeFallible (apply : Cluster → Cluster) (st : St) : Option ErrKind × St :=
  match popFault st with
  | (none, st1) => (none, { st1 with cluster := apply st1.cluster })
  | (some e, st1) => (some e, st1)

/-- `r.Status().Update(ctx, database)`: persist the in-memory record (status
included); a conflict is recorded on the state. -/
def persistStatus (db : Database) (st : St) : Option ErrKind × St :=
  match popFault st with
  | (none, st1) =>
      (none, { st1 with
                cluster := { st1.cluster with database := some db },
                statusWrites := st1.statusWrites + 1 })
  | (some ErrKind.conflict, st1) =>
      (some ErrKind.conflict, { st1 with conflictOnPersist := true })
  | (some e, st1) => (some e, st1)

/-- `r.Update(ctx, database)`: persist the in-memory record (metadata and
spec); a conflict is recorded on the state. -/
def persistRecord (db : Database) (st : St) : Option ErrKind × St :=
  match popFault st with
  | (none, st1) =>
      (none, { st1 with cluster := { st1.cluster with database := some db } })
  | (some ErrKind.conflict, st1) =>
      (some ErrKind.conflict, { st1 with conflictOnPersist := true })
  | (some e, st1) => (some e, st1)

/-! ## controllerutil and meta helpers -/

/-- controllerutil.ContainsFinalizer. -/
def containsFinalizer (db : Database) (f : String) : Bool :=
  db.finalizers.contains f

/-- controllerutil.AddFinalizer: returns whether the marker was added. -/
def addFinalizer (db : Database) (f : String) : Bool × Database :=
  if db.finalizers.contains f then (false, db)
  else (true, { db with finalizers := db.finalizers ++ [f] })

/-- controllerutil.RemoveFinalizer: returns whether the marker was removed. -/
def removeFinalizer (db : Database) (f : String) : Bool × Database :=
  if db.finalizers.contains f then
    (true, { db with finalizers := db.finalizers.filter (fun x => x != f) })
  else (false, db)

/-- meta.SetStatusCondition: keep one condition per type; report `false`
(no change) when a condition of the same type with the same status, reason
and message is already present. -/
def setStatusCondition (conds : List Condition) (c : Condition) : Bool × List Condition :=
  match conds.find? (fun o => o.condType = c.condType) with
  | none => (true, conds ++ [c])
  | some o =>
      if o.status = c.status && o.reason = c.reason && o.message = c.message then
        (false, conds)
      else
        (true, replaceFirst (fun o2 => o2.condType = c.condType) c conds)

/-! ## Status conditions written by the controller -/

def availableUnknownCond : Condition :=
  { condType := typeAvailableDatabase, status := "Unknown",
    reason := "Reconciling", message := "Starting reconciliation" }

def availableTrueCond (db : Database) : Condition :=
  { condType := typeAvailableDatabase, status := "True", reason := "Reconciling",
    message := "Deployment for custom resource (" ++ db.name ++ ") created successfully" }

def degradedUnknownCond (db : Database) : Condition :=
  { condType := typeDegradedDatabase, status := "Unknown", reason := "Finalizing",
    message := "Performing finalizer operations for the custom resource: " ++ db.name ++ " " }

def degradedTrueCond (db : Database) : Condition :=
  { condType := typeDegradedDatabase, status := "True", reason := "Finalizing",
    message := "Finalizer operations for custom resource " ++ db.name ++ " name were successfully accomplished" }

/-! ## Key generation (internal/utils/jwt.go)

`GenerateAsymmetricKeys` draws a fresh ed25519 keypair from the system
randomness; the embedding draws opaque fresh key material from the key
counter, and the url-safe unpadded base64 encoding of the secret writer is
an opaque injective wrapper. -/

def b64url (s : String) : String := "b64url(" ++ s ++ ")"

def generateAsymmetricKeys (st : St) : (String × String) × St :=
  (("public-key-" ++ toString st.keyCtr, "private-key-" ++ toString st.keyCtr),
   { st with keyCtr := st.keyCtr + 1 })

/-! ## Cluster mutations used by the reconcilers -/

def clusterDeleteSecret (ns name : String) (c : Cluster) : Cluster :=
  { c with secrets := c.secrets.filter (fun s => !(secretKey ns name s)) }

def clusterCreateSecret (s : Secret) (c : Cluster) : Cluster :=
  { c with secrets := c.secrets ++ [s] }

def clusterCreateStatefulSet (s : StatefulSet) (c : Cluster) : Cluster :=
  { c with statefulSets := c.statefulSets ++ [s] }

def clusterUpdateStatefulSet (ns name : String) (s : StatefulSet) (c : Cluster) : Cluster :=
  { c with statefulSets := replaceFirst (stsKey ns name) s c.statefulSets }

def clusterCreateService (s : KSvc) (c : Cluster) : Cluster :=
  { c with services := c.services ++ [s] }

def clusterUpdateService (ns name : String) (s : KSvc) (c : Cluster) : Cluster :=
  { c with services := replaceFirst (svcKey ns name) s c.services }

def clusterCreateIngress (i : Ingress) (c : Cluster) : Cluster :=
  { c with ingresses := c.ingresses ++ [i] }

def clusterUpdateIngress (ns name : String) (i : Ingress) (c : Cluster) : Cluster :=
  { c with ingresses := replaceFirst (ingKey ns name) i c.ingresses }

def clusterDeleteIngress (ns name : String) (c : Cluster) : Cluster :=
  { c with ingresses := c.ingresses.filter (fun i => !(ingKey ns name i)) }

def clusterDeletePVC (ns name : String) (c : Cluster) : Cluster :=
  { c with pvcs := c.pvcs.filter (fun p => !(pvcKey ns name p)) }

/-! ## AuthSecret reconciler (database_secret.go, ReconcileDatabaseSecrets) -/

/-- The owner reference the secret and ingress constructors write: built from
the package constants, not from the record TypeMeta. -/
def ownerRefConst (db : Database) : OwnerReference :=
  { apiVersion := databaseAPIVersion, kind := databaseKind, name := db.name, uid := db.uid }

/-- The owner reference the statefulset and service constructors write: built
from the record TypeMeta fields. -/
def ownerRefMeta (db : Database) : OwnerReference :=
  { apiVersion := db.apiVersion, kind := db.kind, name := db.name, uid := db.uid }

/-- ReconcileDatabaseSecrets (database_secret.go lines 19-67): fetch the
canonical secret; create it with fresh keys when auth is on and it is absent;
delete it when auth is off and it exists; otherwise leave it untouched. -/
def ReconcileDatabaseSecrets (db : Database) (st0 : St) :
    Except ErrKind (Option Secret) × St :=
  let st := { st0 with trace := st0.trace ++ [Ev.authSecretRec] }
  match findSecret st.cluster db.ns (GetAuthSecretName db) with
  | some found =>
      if db.spec.auth then
        (Except.ok (some found), st)
      else
        -- delete secret if database does not need auth
        match writeFallible (clusterDeleteSecret db.ns (GetAuthSecretName db)) st with
        | (none, st1) => (Except.ok none, st1)
        | (some e, st1) => (Except.error e, st1)
  | none =>
      if db.spec.auth then
        let (keys, st1) := generateAsymmetricKeys st
        let newSecret : Secret :=
          { name := GetAuthSecretName db, ns := db.ns,
            ownerReferences := [ownerRefConst db],
            data := [("PUBLIC_KEY", b64url keys.1), ("PRIVATE_KEY", b64url keys.2)] }
        match writeFallible (clusterCreateSecret newSecret) st1 with
        | (none, st2) => (Except.ok (some newSecret), st2)
        | (some e, st2) => (Except.error e, st2)
      else
        (Except.ok none, st)

/-! ## Workload reconciler (database_statefulset.go, first version) -/

/-- ConstructPrimaryStatefulSet (database_statefulset.go lines 50-192):
the desired primary workload computed from the record. -/
def ConstructPrimaryStatefulSet (db : Database) : StatefulSet :=
  let baseEnv : List EnvVar :=
    [{ name := "SQLD_NODE", value := "primary", valueFrom := none }]
  let envWithAuth : List EnvVar :=
    if db.spec.auth then
      baseEnv ++ [{ name := "SQLD_AUTH_JWT_KEY", value := "",
                    valueFrom := some (GetAuthSecretName db, "PUBLIC_KEY") }]
    else baseEnv
  -- user-supplied overrides are appended unless they collide with the
  -- reconciler-owned keys (lines 184-190)
  let mergedEnv : List EnvVar :=
    envWithAuth ++ db.spec.env.filter
      (fun e => !(e.name == "SQLD_NODE" || e.name == "SQLD_AUTH_JWT_KEY"))
  { name := db.name, ns := db.ns,
    ownerReferences := [ownerRefMeta db],
    labels := [(databaseLabel, db.name), ("node", "primary")],
    selector := [(databaseLabel, db.name), ("node", "primary")],
    serviceName := GetDatabaseServiceName db true,
    replicas := 1,
    templateLabels := [(databaseLabel, db.name), ("node", "primary")],
    podExtra := db.spec.podExtra,
    container :=
      { image := db.spec.image, imagePullPolicy := db.spec.imagePullPolicy,
        name := "libsql-server", resources := db.spec.resource,
        ports := [{ containerPort := 8080, protocol := "TCP", name := "primary-http" },
                  { containerPort := 5001, protocol := "TCP", name := "primary-grpc" }],
        env := mergedEnv,
        livenessProbe := { path := "/health", port := 8080 },
        readinessProbe := { path := "/health", port := 8080 },
        volumeMounts := [{ name := GetDatabasePVCName db, mountPath := "/var/lib/sqld" }] },
    volumeClaimTemplates :=
      [{ name := GetDatabasePVCName db,
         labels := [(databaseLabel, db.name), ("node", "primary")],
         accessModes := ["ReadWriteOnce"],
         storageRequest := db.spec.storageSize }] }

/-- ReconcileStatefulSets (database_statefulset.go lines 19-48): construct the
desired workload, create it when absent, then unconditionally update it. -/
def ReconcileStatefulSets (db : Database) (st0 : St) :
    Except ErrKind StatefulSet × St :=
  let st := { st0 with trace := st0.trace ++ [Ev.statefulSetRec] }
  let primary := ConstructPrimaryStatefulSet db
  -- patch the statefulset (the unconditional r.Update at the end)
  let update := fun (st1 : St) =>
    match writeFallible (clusterUpdateStatefulSet db.ns db.name primary) st1 with
    | (none, st2) => (Except.ok primary, st2)
    | (some e, st2) => (Except.error e, st2)
  match findStatefulSet st.cluster db.ns db.name with
  | some _ => update st
  | none =>
      match writeFallible (clusterCreateStatefulSet primary) st with
      | (none, st1) => update st1
      | (some e, st1) => (Except.error e, st1)

/-! ## Service reconciler (part_002, first version) -/

/-- ConstructService (part_002): the two endpoints share ports and selector;
the headless one gets `ClusterIP = "None"`. -/
def ConstructService (db : Database) (headless : Bool) : KSvc :=
  let base : KSvc :=
    { name := GetDatabaseServiceName db headless, ns := db.ns,
      ownerReferences := [ownerRefMeta db],
      labels := [(databaseLabel, db.name), ("node", "primary")],
      ports := [{ port := 8080, targetPort := 8080, protocol := "TCP", name := "primary-http" },
                { port := 5001, targetPort := 5001, protocol := "TCP", name := "primary-grpc" }],
      selector := [(databaseLabel, db.name), ("node", "primary")],
      clusterIP := none }
  if headless then { base with clusterIP := some "None" } else base

/-- reconcileService (part_002, lowercase helper): create-if-absent then
unconditional update of one endpoint. -/
def reconcileServiceOne (db : Database) (headless : Bool) (st : St) :
    Except ErrKind KSvc × St :=
  let svc := ConstructService db headless
  let key := GetDatabaseServiceName db headless
  let update := fun (st1 : St) =>
    match writeFallible (clusterUpdateService db.ns key svc) st1 with
    | (none, st2) => (Except.ok svc, st2)
    | (some e, st2) => (Except.error e, st2)
  match findService st.cluster db.ns key with
  | some _ => update st
  | none =>
      match writeFallible (clusterCreateService svc) st with
      | (none, st1) => update st1
      | (some e, st1) => (Except.error e, st1)

/-- ReconcileService (part_002 lines 16-26, called ReconcileDatabaseService by
the engine): headless endpoint first, then the routable one. -/
def ReconcileDatabaseService (db : Database) (st0 : St) :
    Except ErrKind (KSvc × KSvc) × St :=
  let st := { st0 with trace := st0.trace ++ [Ev.serviceRec] }
  match reconcileServiceOne db true st with
  | (Except.error e, st1) => (Except.error e, st1)
  | (Except.ok headless, st1) =>
      match reconcileServiceOne db false st1 with
      | (Except.error e, st2) => (Except.error e, st2)
      | (Except.ok svc, st2) => (Except.ok (headless, svc), st2)

/-! ## Ingress reconciler (database_ingress.go) -/

/-- ConstructDatabaseIngress (database_ingress.go lines 63-108); only called
with a non-nil ingress configuration, whose fields it copies. -/
def ConstructDatabaseIngress (db : Database) : Ingress :=
  { name := GetDatabaseIngressName db, ns := db.ns,
    ownerReferences := [ownerRefConst db],
    labels := [(databaseLabel, db.name), ("node", "primary")],
    ingressClassName := (db.spec.ingress.map (fun i => i.ingressClassName)).join,
    tls := (db.spec.ingress.map (fun i => i.tls)).getD [],
    rules := [{ host := (db.spec.ingress.map (fun i => i.host)).getD "",
                paths := [{ path := "/", pathType := "Prefix",
                            backendService := GetDatabaseServiceName db false,
                            backendPort := 8080 }] }] }

/-- ReconcileDatabaseIngress (database_ingress.go lines 19-61): create when
absent and configured, delete when present and unconfigured, otherwise
update with the freshly constructed object; a not-found failure of that
update is swallowed. -/
def ReconcileDatabaseIngress (db : Database) (st0 : St) :
    Except ErrKind (Option Ingress) × St :=
  let st := { st0 with trace := st0.trace ++ [Ev.ingressRec] }
  let key := GetDatabaseIngressName db
  let update := fun (st1 : St) =>
    let ing := ConstructDatabaseIngress db
    match writeFallible (clusterUpdateIngress db.ns key ing) st1 with
    | (none, st2) => (Except.ok (some ing), st2)
    | (some ErrKind.notFound, st2) => (Except.ok (some ing), st2)
    | (some e, st2) => (Except.error e, st2)
  match findIngress st.cluster db.ns key, db.spec.ingress with
  | none, some _ =>
      match writeFallible (clusterCreateIngress (ConstructDatabaseIngress db)) st with
      | (none, st1) => update st1
      | (some e, st1) => (Except.error e, st1)
  | none, none => (Except.ok none, st)
  | some _, none =>
      -- delete ingress if database does not need it
      match writeFallible (clusterDeleteIngress db.ns key) st with
      | (none, st1) => (Except.ok none, st1)
      | (some e, st1) => (Except.error e, st1)
  | some _, some _ => update st

/-! ## PVC cleanup (database_pvc.go, DeleteDatabasePVC) -/

/-- labels.Requirement restricted to equality requirements. -/
structure Requirement where
  key : String
  value : String
deriving DecidableEq, Repr

/-- labels.Selector: a conjunction of requirements; matches a PVC when every
requirement holds on its labels. -/
def selectorMatches (sel : List Requirement) (p : PVC) : Bool :=
  sel.all (fun r => p.labels.lookup r.key == some r.value)

/-- labels.Selector.Add: RETURNS the extended selector (the receiver is not
mutated). -/
def selectorAdd (s : List Requirement) (rs : List Requirement) : List Requirement :=
  s ++ rs

/-- Best-effort deletion of every listed PVC: an individual deletion error is
logged and does not stop the loop (database_pvc.go lines 34-39). -/
def deleteListedPVCs (db : Database) : List PVC → St → St
  | [], st => st
  | p :: rest, st =>
      match writeFallible (clusterDeletePVC p.ns p.name) st with
      | (_, st1) => deleteListedPVCs db rest st1

/-- DeleteDatabasePVC (database_pvc.go lines 15-42): build the managed-by
equality requirement, call Add on the empty selector — whose RESULT IS
DISCARDED, exactly as in the Go source, where labels.Selector.Add returns a
new selector — list PVCs with the (still empty) selector, and best-effort
delete each listed claim.  Completion of the cleanup is traced. -/
def DeleteDatabasePVC (db : Database) (st : St) : Option ErrKind × St :=
  let pvcLabels : List Requirement := []
  let controlledByRequirement : Requirement := { key := databaseLabel, value := db.name }
  let _augmented := selectorAdd pvcLabels [controlledByRequirement]
  let listed := st.cluster.pvcs.filter (selectorMatches pvcLabels)
  let st1 := deleteListedPVCs db listed st
  (none, { st1 with trace := st1.trace ++ [Ev.pvcCleanupDone] })

/-! ## Finalization (part_000) -/

/-- DoFinalizerOperationsForDatabase (part_000 lines 98-122): raise a
best-effort event (not modelled in the store) and delete the labelled PVCs;
a PVC-cleanup error is logged, not surfaced. -/
def DoFinalizerOperationsForDatabase (db : Database) (st : St) : St :=
  match DeleteDatabasePVC db st with
  | (_, st1) => st1

/-- Marker step of ReconcileFinalizer (part_000 lines 22-35): add the
finalizer marker when absent and persist; a conflict or a failed add turns
into a requeue signal. -/
def finalizerEnsureMarker (db0 : Database) (st0 : St) :
    Except ErrKind (Bool × Database) × St :=
  if containsFinalizer db0 databaseFinalizer then (Except.ok (false, db0), st0)
  else
    match addFinalizer db0 databaseFinalizer with
    | (false, db1) => (Except.ok (true, db1), st0)
    | (true, db1) =>
        match persistRecord db1 st0 with
        | (none, st1) => (Except.ok (false, db1), st1)
        | (some ErrKind.conflict, st1) => (Except.ok (true, db1), st1)
        | (some e, st1) => (Except.error e, st1)

/-- One conditional status persist of the finalization path (part_000
lines 44-55 and 64-75): persist only when the condition changed; a conflict
is signalled distinctly so the caller can requeue. -/
def statusPersistIfChanged (db2 : Database) (changed : Bool) (st : St) :
    Except ErrKind Unit × St :=
  if changed then
    match persistStatus db2 st with
    | (none, st2) => (Except.ok (), st2)
    | (some ErrKind.conflict, st2) => (Except.error ErrKind.conflict, st2)
    | (some e, st2) => (Except.error e, st2)
  else (Except.ok (), st)

/-- Marker removal and persist (part_000 lines 77-89). -/
def finalizerRemoveAndPersist (db3 : Database) (st4 : St) :
    Except ErrKind (Bool × Database) × St :=
  match removeFinalizer db3 databaseFinalizer with
  | (false, db4) => (Except.ok (true, db4), st4)
  | (true, db4) =>
      match persistRecord db4 st4 with
      | (none, st5) =>
          (Except.ok (false, db4),
           { st5 with trace := st5.trace ++ [Ev.finalizerRemoved] })
      | (some ErrKind.conflict, st5) => (Except.ok (true, db4), st5)
      | (some e, st5) => (Except.error e, st5)

/-- Finalization proper (part_000 lines 41-90): degraded status write, PVC
cleanup, degraded-done status write, marker removal and persist. -/
def finalizerFinalize (db1 : Database) (st1 : St) :
    Except ErrKind (Bool × Database) × St :=
  match setStatusCondition db1.conditions (degradedUnknownCond db1) with
  | (changed, conds1) =>
    let db2 := { db1 with conditions := conds1 }
    match statusPersistIfChanged db2 changed st1 with
    | (Except.error ErrKind.conflict, st2) => (Except.ok (true, db2), st2)
    | (Except.error e, st2) => (Except.error e, st2)
    | (Except.ok _, st2) =>
      let st3 := DoFinalizerOperationsForDatabase db2 st2
      match setStatusCondition db2.conditions (degradedTrueCond db2) with
      | (changed2, conds2) =>
        let db3 := { db2 with conditions := conds2 }
        match statusPersistIfChanged db3 changed2 st3 with
        | (Except.error ErrKind.conflict, st4) => (Except.ok (true, db3), st4)
        | (Except.error e, st4) => (Except.error e, st4)
        | (Except.ok _, st4) => finalizerRemoveAndPersist db3 st4

/-- Deletion check of ReconcileFinalizer (part_000 lines 37-94): run the
finalization protocol only when a real deletion timestamp is set and the
marker is present. -/
def finalizerHandleDeletion (db1 : Database) (st1 : St) :
    Except ErrKind (Bool × Database) × St :=
  if db1.deletionTimestamp.getD 0 != 0 then
    if containsFinalizer db1 databaseFinalizer then finalizerFinalize db1 st1
    else (Except.ok (false, db1), st1)
  else (Except.ok (false, db1), st1)

/-- ReconcileFinalizer (part_000 lines 17-95, invoked by the engine as
ReconcileDatabaseFinalizer): ensure the finalizer marker, and on a pending
deletion request run the finalization protocol, remove the marker and
persist.  Returns the requeue flag together with the (possibly mutated)
in-memory record, as the Go code mutates the record through a pointer. -/
def ReconcileDatabaseFinalizer (db0 : Database) (st0 : St) :
    Except ErrKind (Bool × Database) × St :=
  match finalizerEnsureMarker db0 st0 with
  | (Except.error e, st1) => (Except.error e, st1)
  | (Except.ok (true, db1), st1) => (Except.ok (true, db1), st1)
  | (Except.ok (false, db1), st1) => finalizerHandleDeletion db1 st1

/-! ## The engine (part_003, Reconcile) -/

/-- Status initialisation (part_003 lines 84-97): when no condition is
present yet, set Available/Unknown and persist; a conflict turns into a
requeue signal. -/
def reconcileStatusInit (db : Database) (st : St) :
    Except ErrKind (Bool × Database) × St :=
  if db.conditions.isEmpty then
    match setStatusCondition db.conditions availableUnknownCond with
    | (changed, conds) =>
      let db1 := { db with conditions := conds }
      if changed then
        match persistStatus db1 st with
        | (none, st1) => (Except.ok (false, db1), st1)
        | (some ErrKind.conflict, st1) => (Except.ok (true, db1), st1)
        | (some e, st1) => (Except.error e, st1)
      else (Except.ok (false, db1), st)
  else (Except.ok (false, db), st)

/-- The four child reconcilers in their fixed order (part_003 lines 107-126);
any error aborts the sequence. -/
def runChildReconcilers (db : Database) (st : St) : Except ErrKind Unit × St :=
  match ReconcileDatabaseSecrets db st with
  | (Except.error e, st1) => (Except.error e, st1)
  | (Except.ok _, st1) =>
    match ReconcileStatefulSets db st1 with
    | (Except.error e, st2) => (Except.error e, st2)
    | (Except.ok _, st2) =>
      match ReconcileDatabaseService db st2 with
      | (Except.error e, st3) => (Except.error e, st3)
      | (Except.ok _, st3) =>
        match ReconcileDatabaseIngress db st3 with
        | (Except.error e, st4) => (Except.error e, st4)
        | (Except.ok _, st4) => (Except.ok (), st4)

/-- Final status write (part_003 lines 128-140): set Available/True and
persist when changed; a conflict turns into a requeue signal. -/
def reconcileFinalStatus (db : Database) (st : St) : Except ErrKind Bool × St :=
  match setStatusCondition db.conditions (availableTrueCond db) with
  | (changed, conds) =>
    let db1 := { db with conditions := conds }
    if changed then
      match persistStatus db1 st with
      | (none, st1) => (Except.ok false, st1)
      | (some ErrKind.conflict, st1) => (Except.ok true, st1)
      | (some e, st1) => (Except.error e, st1)
    else (Except.ok false, st)

/-- The child-reconciler sequence followed by the final status write
(part_003 lines 107-142). -/
def reconcileChildrenAndStatus (db : Database) (st : St) : Except ErrKind Bool × St :=
  match runChildReconcilers db st with
  | (Except.error e, st3) => (Except.error e, st3)
  | (Except.ok _, st3) => reconcileFinalStatus db st3

/-- Reconcile (part_003 lines 74-143): fetch the record (not-found is a
successful no-op), initialise status, run the finalizer step, then the four
child reconcilers, then the final status write.  The result `Except.ok b`
stands for `(ctrl.Result{Requeue: b}, nil)`, `Except.error e` for a returned
error. -/
def Reconcile (st : St) : Except ErrKind Bool × St :=
  match st.cluster.database with
  | none => (Except.ok false, st)
  | some db =>
    match reconcileStatusInit db st with
    | (Except.error e, st1) => (Except.error e, st1)
    | (Except.ok (true, _), st1) => (Except.ok true, st1)
    | (Except.ok (false, db1), st1) =>
      match ReconcileDatabaseFinalizer db1 st1 with
      | (Except.error e, st2) => (Except.error e, st2)
      | (Except.ok (true, _), st2) => (Except.ok true, st2)
      | (Except.ok (false, db2), st2) => reconcileChildrenAndStatus db2 st2

/-! ## Settled predicates: the store already matches the record -/

/-- The secret store matches the record: present iff auth is on. -/
def secretSettled (db : Database) (c : Cluster) : Prop :=
  (db.spec.auth = true → ∃ s, findSecret c db.ns (GetAuthSecretName db) = some s) ∧
  (db.spec.auth = false → findSecret c db.ns (GetAuthSecretName db) = none)

/-- The workload store holds exactly the constructed primary workload. -/
def stsSettled (db : Database) (c : Cluster) : Prop :=
  findStatefulSet c db.ns db.name = some (ConstructPrimaryStatefulSet db)

/-- The service store holds exactly the two constructed endpoints. -/
def svcSettled (db : Database) (c : Cluster) : Prop :=
  findService c db.ns (GetDatabaseServiceName db true) = some (ConstructService db true) ∧
  findService c db.ns (GetDatabaseServiceName db false) = some (ConstructService db false)

/-- The ingress store matches the record: absent when unconfigured, the
constructed ingress when configured. -/
def ingSettled (db : Database) (c : Cluster) : Prop :=
  (db.spec.ingress = none → findIngress c db.ns (GetDatabaseIngressName db) = none) ∧
  (db.spec.ingress ≠ none →
    findIngress c db.ns (GetDatabaseIngressName db) = some (ConstructDatabaseIngress db))

def allSettled (db : Database) (c : Cluster) : Prop :=
  secretSettled db c ∧ stsSettled db c ∧ svcSettled db c ∧ ingSettled db c

/-- The secret the reconciler creates when auth is on and the canonical
secret is absent, with key material drawn at counter value k. -/
def freshAuthSecret (db : Database) (k : Nat) : Secret :=
  { name := GetAuthSecretName db, ns := db.ns,
    ownerReferences := [ownerRefConst db],
    data := [("PUBLIC_KEY", b64url ("public-key-" ++ toString k)),
             ("PRIVATE_KEY", b64url ("private-key-" ++ toString k))] }

/-! ## Concrete sample inputs used by witnesses and counterexamples -/

def sampleIngressCfg : AhtiDatabaseIngressSpec :=
  { ingressClassName := some "nginx", host := "a.example.com", tls := [] }

def sampleSpec : DatabaseSpec :=
  { image := "img:v1", imagePullPolicy := "Always", auth := true,
    storageSize := "1Gi", resource := "cpu:100m",
    ingress := some sampleIngressCfg, env := [], podExtra := "" }

def sampleDb : Database :=
  { name := "db1", ns := "default", uid := "u1",
    apiVersion := databaseAPIVersion, kind := databaseKind,
    finalizers := [], deletionTimestamp := none,
    spec := sampleSpec, conditions := [] }

def emptyClusterWith (db : Database) : Cluster :=
  { database := some db, secrets := [], statefulSets := [],
    services := [], ingresses := [], pvcs := [] }

def sampleSt : St :=
  { cluster := emptyClusterWith sampleDb, faults := [], trace := [],
    statusWrites := 0, conflictOnPersist := false, keyCtr := 0 }

def sampleSecret : Secret :=
  { name := "db1-auth-key", ns := "default",
    ownerReferences := [ownerRefConst sampleDb],
    data := [("PUBLIC_KEY", "pk-bytes"), ("PRIVATE_KEY", "sk-bytes")] }

def samplePVCLabeled : PVC :=
  { name := "data-db1-0", ns := "default",
    labels := [(databaseLabel, "db1"), ("node", "primary")] }

def samplePVCForeign : PVC :=
  { name := "other-pvc", ns := "default", labels := [("app", "unrelated")] }

def sampleDbDeleting : Database :=
  { sampleDb with deletionTimestamp := some 5,
                  finalizers := [databaseFinalizer],
                  conditions := [availableTrueCond sampleDb] }

def sampleStDeleting : St :=
  { cluster := { database := some sampleDbDeleting, secrets := [sampleSecret],
                 statefulSets := [], services := [], ingresses := [],
                 pvcs := [samplePVCLabeled, samplePVCForeign] },
    faults := [], trace := [], statusWrites := 0,
    conflictOnPersist := false, keyCtr := 0 }

/-- A store that already holds the canonical auth secret for the sample
record, with externally supplied key material. -/
def sampleStWithSecret : St :=
  { cluster := { database := some sampleDb, secrets := [sampleSecret],
                 statefulSets := [], services := [], ingresses := [], pvcs := [] },
    faults := [], trace := [], statusWrites := 0,
    conflictOnPersist := false, keyCtr := 0 }

/-- The sample record with the authentication flag turned off. -/
def sampleDbNoAuth : Database :=
  { sampleDb with spec := { sampleSpec with auth := false } }

/-- The sample store with a single injected stale-version conflict on the
first persist. -/
def sampleStConflict : St :=
  { sampleSt with faults := [some ErrKind.conflict] }

/-! ## Helper lemmas on the keyed-list store -/

theorem replaceFirst_of_find_self {α : Type} {p : α → Bool} {v : α} {l : List α}
    (h : l.find? p = some v) : replaceFirst p v l = l := by
  induction l with
  | nil => simp at h
  | cons x xs ih =>
      cases hx : p x with
      | false =>
          simp only [List.find?, hx] at h
          simp [replaceFirst, hx, ih h]
      | true =>
          simp only [List.find?, hx, Option.some.injEq] at h
          subst h
          simp [replaceFirst, hx]

theorem find_append_singleton_of_none {α : Type} {p : α → Bool} {l : List α}
    (h : l.find? p = none) (v : α) (hv : p v = true) :
    (l ++ [v]).find? p = some v := by
  induction l with
  | nil => simp [List.find?, hv]
  | cons x xs ih =>
      cases hx : p x with
      | false =>
          simp only [List.find?, hx] at h
          simpa [List.find?, hx] using ih h
      | true => simp [List.find?, hx] at h

theorem find_replaceFirst_same {α : Type} {p : α → Bool} {v x : α} {l : List α}
    (h : l.find? p = some x) (hv : p v = true) :
    (replaceFirst p v l).find? p = some v := by
  induction l with
  | nil => simp at h
  | cons y ys ih =>
      cases hy : p y with
      | false =>
          simp only [List.find?, hy] at h
          simp [replaceFirst, hy, List.find?, ih h]
      | true => simp [replaceFirst, hy, List.find?, hv]

theorem find_filter_not {α : Type} (p : α → Bool) (l : List α) :
    (l.filter (fun a => !(p a))).find? p = none := by
  induction l with
  | nil => simp
  | cons x xs ih =>
      cases hx : p x with
      | false => simp [List.filter_cons, hx, List.find?, ih]
      | true => simp [List.filter_cons, hx, ih]

theorem replaceFirst_length {α : Type} (p : α → Bool) (v : α) (l : List α) :
    (replaceFirst p v l).length = l.length := by
  induction l with
  | nil => rfl
  | cons x xs ih =>
      cases hx : p x with
      | false => simp [replaceFirst, hx, ih]
      | true => simp [replaceFirst, hx]

/-! ## Helper lemmas on setStatusCondition -/

theorem setStatusCondition_eq_of_none {conds : List Condition} {c : Condition}
    (hf : conds.find? (fun o => o.condType = c.condType) = none) :
    setStatusCondition conds c = (true, conds ++ [c]) := by
  simp [setStatusCondition, hf]

theorem setStatusCondition_eq_of_same {conds : List Condition} {c o : Condition}
    (hf : conds.find? (fun o => o.condType = c.condType) = some o)
    (he : (o.status = c.status && o.reason = c.reason && o.message = c.message) = true) :
    setStatusCondition conds c = (false, conds) := by
  simp [setStatusCondition, hf, he]

theorem setStatusCondition_eq_of_ne {conds : List Condition} {c o : Condition}
    (hf : conds.find? (fun o => o.condType = c.condType) = some o)
    (he : (o.status = c.status && o.reason = c.reason && o.message = c.message) = false) :
    setStatusCondition conds c =
      (true, replaceFirst (fun o2 => o2.condType = c.condType) c conds) := by
  simp [setStatusCondition, hf, he]

theorem setStatusCondition_idem (conds : List Condition) (c : Condition) :
    setStatusCondition (setStatusCondition conds c).2 c =
      (false, (setStatusCondition conds c).2) := by
  have hc : (fun o => decide (o.condType = c.condType)) c = true := by simp
  cases hf : conds.find? (fun o => o.condType = c.condType) with
  | none =>
      rw [setStatusCondition_eq_of_none hf]
      have hfind : (conds ++ [c]).find? (fun o => o.condType = c.condType) = some c :=
        find_append_singleton_of_none hf c hc
      rw [setStatusCondition_eq_of_same hfind (by simp)]
  | some o =>
      cases he : (o.status = c.status && o.reason = c.reason && o.message = c.message) with
      | true =>
          rw [setStatusCondition_eq_of_same hf he]
          rw [setStatusCondition_eq_of_same hf he]
      | false =>
          rw [setStatusCondition_eq_of_ne hf he]
          have hfind :
              (replaceFirst (fun o2 => decide (o2.condType = c.condType)) c conds).find?
                (fun o => o.condType = c.condType) = some c :=
            find_replaceFirst_same hf hc
          rw [setStatusCondition_eq_of_same hfind (by simp)]

theorem setStatusCondition_false_shape {conds conds2 : List Condition} {c : Condition}
    (h : setStatusCondition conds c = (false, conds2)) :
    conds2 = conds ∧ conds ≠ [] := by
  cases hf : conds.find? (fun o => o.condType = c.condType) with
  | none => rw [setStatusCondition_eq_of_none hf] at h; cases h
  | some o =>
      cases he : (o.status = c.status && o.reason = c.reason && o.message = c.message) with
      | true =>
          rw [setStatusCondition_eq_of_same hf he] at h
          refine ⟨?_, ?_⟩
          · cases h; rfl
          · intro hnil; subst hnil; simp at hf
      | false =>
          rw [setStatusCondition_eq_of_ne hf he] at h
          cases h

theorem setStatusCondition_snd_ne_nil (conds : List Condition) (c : Condition) :
    (setStatusCondition conds c).2 ≠ [] := by
  cases hf : conds.find? (fun o => o.condType = c.condType) with
  | none => rw [setStatusCondition_eq_of_none hf]; simp
  | some o =>
      have hne : conds ≠ [] := by intro hnil; subst hnil; simp at hf
      cases he : (o.status = c.status && o.reason = c.reason && o.message = c.message) with
      | true => rw [setStatusCondition_eq_of_same hf he]; exact hne
      | false =>
          rw [setStatusCondition_eq_of_ne hf he]
          intro hnil
          simp only [] at hnil
          apply hne
          have := replaceFirst_length (fun o2 => decide (o2.condType = c.condType)) c conds
          rw [hnil] at this
          exact List.length_eq_zero.mp this.symm

/-! ## AuthSecret reconciler lemmas -/

theorem secrets_keyed (db : Database) (k : Nat) :
    secretKey db.ns (GetAuthSecretName db) (freshAuthSecret db k) = true := by
  simp [secretKey, freshAuthSecret]

/-! ## More keyed-list lemmas for cross-key preservation -/

theorem find_append_of_some {α : Type} {p : α → Bool} {l : List α} {x : α}
    (h : l.find? p = some x) (l2 : List α) : (l ++ l2).find? p = some x := by
  rw [List.find?_append, h]
  rfl

theorem find_append_singleton_of_notkey {α : Type} {p : α → Bool} {v : α}
    (hv : p v = false) (l : List α) : (l ++ [v]).find? p = l.find? p := by
  induction l with
  | nil => simp [List.find?, hv]
  | cons y ys ih =>
      cases hy : p y with
      | false => simp [List.find?, hy, ih]
      | true => simp [List.find?, hy]

theorem find_replaceFirst_other {α : Type} {p q : α → Bool} {v : α}
    (hpq : ∀ x, q x = true → p x = false) (hv : p v = false) (l : List α) :
    (replaceFirst q v l).find? p = l.find? p := by
  induction l with
  | nil => rfl
  | cons y ys ih =>
      cases hy : q y with
      | false => simp [replaceFirst, hy, List.find?, ih]
      | true => simp [replaceFirst, hy, List.find?, hv, hpq y hy]

theorem string_append_right_ne {a b : String} (s : String) (h : a ≠ b) :
    s ++ a ≠ s ++ b := by
  intro he
  apply h
  have hd := congrArg String.data he
  rw [String.data_append, String.data_append] at hd
  have := List.append_cancel_left hd
  cases a; cases b
  exact congrArg String.mk this

/-! ## Child reconciler runs, stated over fully destructured states -/

/-- Fault-free run of the secret reconciler: it succeeds, touches only the
secret store, the trace and the key counter, and leaves the secret store
settled. -/
theorem secrets_run_A (db : Database) (d : Option Database) (se : List Secret)
    (ss : List StatefulSet) (sv : List KSvc) (ig : List Ingress) (pv : List PVC)
    (tr : List Ev) (sw : Nat) (cp : Bool) (kc : Nat) :
    ∃ r S k2, ReconcileDatabaseSecrets db ⟨⟨d, se, ss, sv, ig, pv⟩, [], tr, sw, cp, kc⟩ =
      (Except.ok r, ⟨⟨d, S, ss, sv, ig, pv⟩, [], tr ++ [Ev.authSecretRec], sw, cp, k2⟩)
      ∧ secretSettled db ⟨d, S, ss, sv, ig, pv⟩ := by
  unfold ReconcileDatabaseSecrets
  cases hfind : findSecret ⟨d, se, ss, sv, ig, pv⟩ db.ns (GetAuthSecretName db) with
  | some found =>
      cases hauth : db.spec.auth with
      | true =>
          refine ⟨some found, se, kc, ?_, ?_, ?_⟩
          · simp [hfind]
          · intro _; exact ⟨found, hfind⟩
          · intro hcon; rw [hauth] at hcon; cases hcon
      | false =>
          refine ⟨none, se.filter (fun s => !(secretKey db.ns (GetAuthSecretName db) s)),
                  kc, ?_, ?_, ?_⟩
          · simp [hfind, writeFallible, popFault, clusterDeleteSecret]
          · intro hcon; rw [hauth] at hcon; cases hcon
          · intro _; exact find_filter_not _ _
  | none =>
      cases hauth : db.spec.auth with
      | true =>
          refine ⟨some (freshAuthSecret db kc), se ++ [freshAuthSecret db kc], kc + 1, ?_, ?_, ?_⟩
          · simp [hfind, generateAsymmetricKeys, writeFallible, popFault,
                  clusterCreateSecret, freshAuthSecret]
          · intro _
            exact ⟨freshAuthSecret db kc,
                   find_append_singleton_of_none hfind _ (secrets_keyed db kc)⟩
          · intro hcon; rw [hauth] at hcon; cases hcon
      | false =>
          refine ⟨none, se, kc, ?_, ?_, ?_⟩
          · simp [hfind]
          · intro hcon; rw [hauth] at hcon; cases hcon
          · intro _; exact hfind

/-- Fixpoint run of the secret reconciler: a settled secret store means no
write happens and only the trace grows. -/
theorem secrets_run_B (db : Database) (d : Option Database) (se : List Secret)
    (ss : List StatefulSet) (sv : List KSvc) (ig : List Ingress) (pv : List PVC)
    (tr : List Ev) (sw : Nat) (cp : Bool) (kc : Nat)
    (hset : secretSettled db ⟨d, se, ss, sv, ig, pv⟩) :
    ∃ r, ReconcileDatabaseSecrets db ⟨⟨d, se, ss, sv, ig, pv⟩, [], tr, sw, cp, kc⟩ =
      (Except.ok r, ⟨⟨d, se, ss, sv, ig, pv⟩, [], tr ++ [Ev.authSecretRec], sw, cp, kc⟩) := by
  unfold ReconcileDatabaseSecrets
  cases hauth : db.spec.auth with
  | true =>
      obtain ⟨s, hs⟩ := hset.1 hauth
      exact ⟨some s, by simp [hs]⟩
  | false =>
      have hs := hset.2 hauth
      exact ⟨none, by simp [hs]⟩

/-! ## Workload reconciler lemmas -/

theorem sts_keyed (db : Database) :
    stsKey db.ns db.name (ConstructPrimaryStatefulSet db) = true := by
  simp [stsKey, ConstructPrimaryStatefulSet]

/-- Fault-free run of the workload reconciler: it succeeds, touches only the
workload store and the trace, and leaves the workload store settled. -/
theorem sts_run_A (db : Database) (d : Option Database) (se : List Secret)
    (ss : List StatefulSet) (sv : List KSvc) (ig : List Ingress) (pv : List PVC)
    (tr : List Ev) (sw : Nat) (cp : Bool) (kc : Nat) :
    ∃ S, ReconcileStatefulSets db ⟨⟨d, se, ss, sv, ig, pv⟩, [], tr, sw, cp, kc⟩ =
      (Except.ok (ConstructPrimaryStatefulSet db),
       ⟨⟨d, se, S, sv, ig, pv⟩, [], tr ++ [Ev.statefulSetRec], sw, cp, kc⟩)
      ∧ stsSettled db ⟨d, se, S, sv, ig, pv⟩ := by
  unfold ReconcileStatefulSets
  cases hfind : findStatefulSet ⟨d, se, ss, sv, ig, pv⟩ db.ns db.name with
  | some x =>
      refine ⟨replaceFirst (stsKey db.ns db.name) (ConstructPrimaryStatefulSet db) ss, ?_, ?_⟩
      · simp [hfind, writeFallible, popFault, clusterUpdateStatefulSet]
      · exact find_replaceFirst_same hfind (sts_keyed db)
  | none =>
      have happ : (ss ++ [ConstructPrimaryStatefulSet db]).find? (stsKey db.ns db.name)
          = some (ConstructPrimaryStatefulSet db) :=
        find_append_singleton_of_none hfind _ (sts_keyed db)
      refine ⟨ss ++ [ConstructPrimaryStatefulSet db], ?_, happ⟩
      · simp [hfind, writeFallible, popFault, clusterCreateStatefulSet,
              clusterUpdateStatefulSet, replaceFirst_of_find_self happ]

/-- Fixpoint run of the workload reconciler: the unconditional update writes
back the identical constructed value, so the cluster does not change. -/
theorem sts_run_B (db : Database) (d : Option Database) (se : List Secret)
    (ss : List StatefulSet) (sv : List KSvc) (ig : List Ingress) (pv : List PVC)
    (tr : List Ev) (sw : Nat) (cp : Bool) (kc : Nat)
    (hset : stsSettled db ⟨d, se, ss, sv, ig, pv⟩) :
    ReconcileStatefulSets db ⟨⟨d, se, ss, sv, ig, pv⟩, [], tr, sw, cp, kc⟩ =
      (Except.ok (ConstructPrimaryStatefulSet db),
       ⟨⟨d, se, ss, sv, ig, pv⟩, [], tr ++ [Ev.statefulSetRec], sw, cp, kc⟩) := by
  unfold ReconcileStatefulSets
  have hfind : findStatefulSet ⟨d, se, ss, sv, ig, pv⟩ db.ns db.name
      = some (ConstructPrimaryStatefulSet db) := hset
  simp [hfind, writeFallible, popFault, clusterUpdateStatefulSet,
        replaceFirst_of_find_self (hfind : ss.find? _ = _)]

/-! ## Service reconciler lemmas -/

theorem svc_keyed (db : Database) (headless : Bool) :
    svcKey db.ns (GetDatabaseServiceName db headless) (ConstructService db headless) = true := by
  cases headless <;> simp [svcKey, ConstructService]

theorem svc_names_ne (db : Database) :
    GetDatabaseServiceName db false ≠ GetDatabaseServiceName db true := by
  unfold GetDatabaseServiceName
  simp only [Bool.false_eq_true, ite_false, ite_true]
  exact string_append_right_ne db.name (by decide)

theorem svc_key_other {db : Database} {b1 b2 : Bool} (hne : b1 ≠ b2) (x : KSvc)
    (hx : svcKey db.ns (GetDatabaseServiceName db b1) x = true) :
    svcKey db.ns (GetDatabaseServiceName db b2) x = false := by
  have hnames : GetDatabaseServiceName db b1 ≠ GetDatabaseServiceName db b2 := by
    cases b1 <;> cases b2 <;> first
      | exact absurd rfl hne
      | exact svc_names_ne db
      | exact (svc_names_ne db).symm
  simp only [svcKey, Bool.and_eq_true, decide_eq_true_eq] at hx
  simp only [svcKey, Bool.and_eq_false_iff]
  left
  simp only [decide_eq_false_iff_not]
  intro hcon
  exact hnames (hx.1.symm.trans hcon)

/-- Fault-free run of one service endpoint: it succeeds, touches only the
service store, the new store finds the constructed endpoint at its key and
preserves lookups at foreign keys. -/
theorem svcOne_run_A (db : Database) (headless : Bool) (d : Option Database)
    (se : List Secret) (ss : List StatefulSet) (sv : List KSvc) (ig : List Ingress)
    (pv : List PVC) (tr : List Ev) (sw : Nat) (cp : Bool) (kc : Nat) :
    ∃ V, reconcileServiceOne db headless ⟨⟨d, se, ss, sv, ig, pv⟩, [], tr, sw, cp, kc⟩ =
      (Except.ok (ConstructService db headless),
       ⟨⟨d, se, ss, V, ig, pv⟩, [], tr, sw, cp, kc⟩)
      ∧ V.find? (svcKey db.ns (GetDatabaseServiceName db headless))
          = some (ConstructService db headless)
      ∧ (∀ p : KSvc → Bool, p (ConstructService db headless) = false →
          (∀ x, svcKey db.ns (GetDatabaseServiceName db headless) x = true → p x = false) →
          V.find? p = sv.find? p) := by
  unfold reconcileServiceOne
  cases hfind : findService ⟨d, se, ss, sv, ig, pv⟩ db.ns (GetDatabaseServiceName db headless) with
  | some x =>
      refine ⟨replaceFirst (svcKey db.ns (GetDatabaseServiceName db headless))
                (ConstructService db headless) sv, ?_, ?_, ?_⟩
      · simp [hfind, writeFallible, popFault, clusterUpdateService]
      · exact find_replaceFirst_same hfind (svc_keyed db headless)
      · intro p hp hfor
        exact find_replaceFirst_other hfor hp _
  | none =>
      have happ : (sv ++ [ConstructService db headless]).find?
          (svcKey db.ns (GetDatabaseServiceName db headless))
          = some (ConstructService db headless) :=
        find_append_singleton_of_none hfind _ (svc_keyed db headless)
      refine ⟨sv ++ [ConstructService db headless], ?_, happ, ?_⟩
      · simp [hfind, writeFallible, popFault, clusterCreateService,
              clusterUpdateService, replaceFirst_of_find_self happ]
      · intro p hp hfor
        exact find_append_singleton_of_notkey hp _

/-- Fixpoint run of one service endpoint. -/
theorem svcOne_run_B (db : Database) (headless : Bool) (d : Option Database)
    (se : List Secret) (ss : List StatefulSet) (sv : List KSvc) (ig : List Ingress)
    (pv : List PVC) (tr : List Ev) (sw : Nat) (cp : Bool) (kc : Nat)
    (hset : findService ⟨d, se, ss, sv, ig, pv⟩ db.ns (GetDatabaseServiceName db headless)
      = some (ConstructService db headless)) :
    reconcileServiceOne db headless ⟨⟨d, se, ss, sv, ig, pv⟩, [], tr, sw, cp, kc⟩ =
      (Except.ok (ConstructService db headless),
       ⟨⟨d, se, ss, sv, ig, pv⟩, [], tr, sw, cp, kc⟩) := by
  unfold reconcileServiceOne
  simp [hset, writeFallible, popFault, clusterUpdateService,
        replaceFirst_of_find_self (hset : sv.find? _ = _)]

/-- Fault-free run of the service pair: it succeeds, touches only the service
store and the trace, and leaves both endpoints settled. -/
theorem svc_run_A (db : Database) (d : Option Database) (se : List Secret)
    (ss : List StatefulSet) (sv : List KSvc) (ig : List Ingress) (pv : List PVC)
    (tr : List Ev) (sw : Nat) (cp : Bool) (kc : Nat) :
    ∃ V, ReconcileDatabaseService db ⟨⟨d, se, ss, sv, ig, pv⟩, [], tr, sw, cp, kc⟩ =
      (Except.ok (ConstructService db true, ConstructService db false),
       ⟨⟨d, se, ss, V, ig, pv⟩, [], tr ++ [Ev.serviceRec], sw, cp, kc⟩)
      ∧ svcSettled db ⟨d, se, ss, V, ig, pv⟩ := by
  unfold ReconcileDatabaseService
  obtain ⟨V1, he1, hk1, hp1⟩ :=
    svcOne_run_A db true d se ss sv ig pv (tr ++ [Ev.serviceRec]) sw cp kc
  simp only [he1]
  obtain ⟨V2, he2, hk2, hp2⟩ :=
    svcOne_run_A db false d se ss V1 ig pv (tr ++ [Ev.serviceRec]) sw cp kc
  simp only [he2]
  refine ⟨V2, rfl, ?_, ?_⟩
  · have hother : V2.find? (svcKey db.ns (GetDatabaseServiceName db true))
        = V1.find? (svcKey db.ns (GetDatabaseServiceName db true)) := by
      apply hp2
      · exact svc_key_other (by decide) _ (svc_keyed db false)
      · intro x hx
        exact svc_key_other (by decide) x hx
    exact hother.trans hk1
  · exact hk2

/-- Fixpoint run of the service pair. -/
theorem svc_run_B (db : Database) (d : Option Database) (se : List Secret)
    (ss : List StatefulSet) (sv : List KSvc) (ig : List Ingress) (pv : List PVC)
    (tr : List Ev) (sw : Nat) (cp : Bool) (kc : Nat)
    (hset : svcSettled db ⟨d, se, ss, sv, ig, pv⟩) :
    ReconcileDatabaseService db ⟨⟨d, se, ss, sv, ig, pv⟩, [], tr, sw, cp, kc⟩ =
      (Except.ok (ConstructService db true, ConstructService db false),
       ⟨⟨d, se, ss, sv, ig, pv⟩, [], tr ++ [Ev.serviceRec], sw, cp, kc⟩) := by
  unfold ReconcileDatabaseService
  have h1 := svcOne_run_B db true d se ss sv ig pv (tr ++ [Ev.serviceRec]) sw cp kc hset.1
  have h2 := svcOne_run_B db false d se ss sv ig pv (tr ++ [Ev.serviceRec]) sw cp kc hset.2
  simp only [h1, h2]

/-! ## Ingress reconciler lemmas -/

theorem ing_keyed (db : Database) :
    ingKey db.ns (GetDatabaseIngressName db) (ConstructDatabaseIngress db) = true := by
  simp [ingKey, ConstructDatabaseIngress]

/-- Fault-free run of the ingress reconciler: it succeeds, touches only the
ingress store and the trace, and leaves the ingress store settled. -/
theorem ing_run_A (db : Database) (d : Option Database) (se : List Secret)
    (ss : List StatefulSet) (sv : List KSvc) (ig : List Ingress) (pv : List PVC)
    (tr : List Ev) (sw : Nat) (cp : Bool) (kc : Nat) :
    ∃ r I, ReconcileDatabaseIngress db ⟨⟨d, se, ss, sv, ig, pv⟩, [], tr, sw, cp, kc⟩ =
      (Except.ok r, ⟨⟨d, se, ss, sv, I, pv⟩, [], tr ++ [Ev.ingressRec], sw, cp, kc⟩)
      ∧ ingSettled db ⟨d, se, ss, sv, I, pv⟩ := by
  unfold ReconcileDatabaseIngress
  cases hfind : findIngress ⟨d, se, ss, sv, ig, pv⟩ db.ns (GetDatabaseIngressName db) with
  | none =>
      cases hcfg : db.spec.ingress with
      | some cfg =>
          have happ : (ig ++ [ConstructDatabaseIngress db]).find?
              (ingKey db.ns (GetDatabaseIngressName db)) = some (ConstructDatabaseIngress db) :=
            find_append_singleton_of_none hfind _ (ing_keyed db)
          refine ⟨some (ConstructDatabaseIngress db), ig ++ [ConstructDatabaseIngress db],
                  ?_, ?_, ?_⟩
          · simp [hfind, hcfg, writeFallible, popFault, clusterCreateIngress,
                  clusterUpdateIngress, replaceFirst_of_find_self happ]
          · intro hcon; rw [hcfg] at hcon; cases hcon
          · intro _; exact happ
      | none =>
          refine ⟨none, ig, ?_, ?_, ?_⟩
          · simp [hfind, hcfg]
          · intro _; exact hfind
          · intro hcon; rw [hcfg] at hcon; exact absurd rfl hcon
  | some x =>
      cases hcfg : db.spec.ingress with
      | none =>
          refine ⟨none, ig.filter (fun i => !(ingKey db.ns (GetDatabaseIngressName db) i)),
                  ?_, ?_, ?_⟩
          · simp [hfind, hcfg, writeFallible, popFault, clusterDeleteIngress]
          · intro _; exact find_filter_not _ _
          · intro hcon; rw [hcfg] at hcon; exact absurd rfl hcon
      | some cfg =>
          refine ⟨some (ConstructDatabaseIngress db),
                  replaceFirst (ingKey db.ns (GetDatabaseIngressName db))
                    (ConstructDatabaseIngress db) ig, ?_, ?_, ?_⟩
          · simp [hfind, hcfg, writeFallible, popFault, clusterUpdateIngress]
          · intro hcon; rw [hcfg] at hcon; cases hcon
          · intro _; exact find_replaceFirst_same hfind (ing_keyed db)

/-- Fixpoint run of the ingress reconciler. -/
theorem ing_run_B (db : Database) (d : Option Database) (se : List Secret)
    (ss : List StatefulSet) (sv : List KSvc) (ig : List Ingress) (pv : List PVC)
    (tr : List Ev) (sw : Nat) (cp : Bool) (kc : Nat)
    (hset : ingSettled db ⟨d, se, ss, sv, ig, pv⟩) :
    ∃ r, ReconcileDatabaseIngress db ⟨⟨d, se, ss, sv, ig, pv⟩, [], tr, sw, cp, kc⟩ =
      (Except.ok r, ⟨⟨d, se, ss, sv, ig, pv⟩, [], tr ++ [Ev.ingressRec], sw, cp, kc⟩) := by
  unfold ReconcileDatabaseIngress
  cases hcfg : db.spec.ingress with
  | none =>
      have hfind := hset.1 hcfg
      exact ⟨none, by simp [hfind, hcfg]⟩
  | some cfg =>
      have hfind := hset.2 (by rw [hcfg]; exact Option.some_ne_none cfg)
      refine ⟨some (ConstructDatabaseIngress db), ?_⟩
      simp [hfind, hcfg, writeFallible, popFault, clusterUpdateIngress,
            replaceFirst_of_find_self (hfind : ig.find? _ = _)]

/-! ## The four child reconcilers composed -/

/-- Fault-free run of the child-reconciler sequence: it succeeds, touches
only the child stores, the trace and the key counter, and settles all four
child stores. -/
theorem children_run_A (db : Database) (d : Option Database) (se : List Secret)
    (ss : List StatefulSet) (sv : List KSvc) (ig : List Ingress) (pv : List PVC)
    (tr : List Ev) (sw : Nat) (cp : Bool) (kc : Nat) :
    ∃ S1 S2 V I k2, runChildReconcilers db ⟨⟨d, se, ss, sv, ig, pv⟩, [], tr, sw, cp, kc⟩ =
      (Except.ok (),
       ⟨⟨d, S1, S2, V, I, pv⟩, [],
        tr ++ [Ev.authSecretRec, Ev.statefulSetRec, Ev.serviceRec, Ev.ingressRec],
        sw, cp, k2⟩)
      ∧ allSettled db ⟨d, S1, S2, V, I, pv⟩ := by
  unfold runChildReconcilers
  obtain ⟨r1, S1, k2, he1, hs1⟩ := secrets_run_A db d se ss sv ig pv tr sw cp kc
  simp only [he1]
  obtain ⟨S2, he2, hs2⟩ := sts_run_A db d S1 ss sv ig pv (tr ++ [Ev.authSecretRec]) sw cp k2
  simp only [he2]
  obtain ⟨V, he3, hs3⟩ := svc_run_A db d S1 S2 sv ig pv
    (tr ++ [Ev.authSecretRec] ++ [Ev.statefulSetRec]) sw cp k2
  simp only [he3]
  obtain ⟨r4, I, he4, hs4⟩ := ing_run_A db d S1 S2 V ig pv
    (tr ++ [Ev.authSecretRec] ++ [Ev.statefulSetRec] ++ [Ev.serviceRec]) sw cp k2
  simp only [he4]
  refine ⟨S1, S2, V, I, k2, by simp, hs1, hs2, hs3, hs4⟩

/-- Fixpoint run of the child-reconciler sequence: with all four child stores
settled, the run succeeds and only the trace grows. -/
theorem children_run_B (db : Database) (d : Option Database) (se : List Secret)
    (ss : List StatefulSet) (sv : List KSvc) (ig : List Ingress) (pv : List PVC)
    (tr : List Ev) (sw : Nat) (cp : Bool) (kc : Nat)
    (hall : allSettled db ⟨d, se, ss, sv, ig, pv⟩) :
    runChildReconcilers db ⟨⟨d, se, ss, sv, ig, pv⟩, [], tr, sw, cp, kc⟩ =
      (Except.ok (),
       ⟨⟨d, se, ss, sv, ig, pv⟩, [],
        tr ++ [Ev.authSecretRec, Ev.statefulSetRec, Ev.serviceRec, Ev.ingressRec],
        sw, cp, kc⟩) := by
  unfold runChildReconcilers
  obtain ⟨r1, he1⟩ := secrets_run_B db d se ss sv ig pv tr sw cp kc hall.1
  simp only [he1]
  have he2 := sts_run_B db d se ss sv ig pv (tr ++ [Ev.authSecretRec]) sw cp kc hall.2.1
  simp only [he2]
  have he3 := svc_run_B db d se ss sv ig pv
    (tr ++ [Ev.authSecretRec] ++ [Ev.statefulSetRec]) sw cp kc hall.2.2.1
  simp only [he3]
  obtain ⟨r4, he4⟩ := ing_run_B db d se ss sv ig pv
    (tr ++ [Ev.authSecretRec] ++ [Ev.statefulSetRec] ++ [Ev.serviceRec]) sw cp kc hall.2.2.2
  simp only [he4]
  simp

/-! ## Engine phase lemmas -/

theorem statusInit_noop (db : Database) (st : St) (hC : db.conditions ≠ []) :
    reconcileStatusInit db st = (Except.ok (false, db), st) := by
  unfold reconcileStatusInit
  cases hc : db.conditions with
  | nil => exact absurd hc hC
  | cons x xs => simp [hc]

theorem statusInit_empty (db : Database) (d : Option Database) (se : List Secret)
    (ss : List StatefulSet) (sv : List KSvc) (ig : List Ingress) (pv : List PVC)
    (tr : List Ev) (sw : Nat) (cp : Bool) (kc : Nat) (hC : db.conditions = []) :
    reconcileStatusInit db ⟨⟨d, se, ss, sv, ig, pv⟩, [], tr, sw, cp, kc⟩ =
      (Except.ok (false, { db with conditions := [availableUnknownCond] }),
       ⟨⟨some { db with conditions := [availableUnknownCond] }, se, ss, sv, ig, pv⟩,
        [], tr, sw + 1, cp, kc⟩) := by
  unfold reconcileStatusInit
  rw [hC]
  simp [setStatusCondition, persistStatus, popFault]

theorem finalizer_noop (db : Database) (st : St)
    (hFin : containsFinalizer db databaseFinalizer = true)
    (hdel : db.deletionTimestamp = none) :
    ReconcileDatabaseFinalizer db st = (Except.ok (false, db), st) := by
  unfold ReconcileDatabaseFinalizer finalizerEnsureMarker finalizerHandleDeletion
  simp [hFin, hdel]

theorem finalizer_add (db : Database) (d : Option Database) (se : List Secret)
    (ss : List StatefulSet) (sv : List KSvc) (ig : List Ingress) (pv : List PVC)
    (tr : List Ev) (sw : Nat) (cp : Bool) (kc : Nat)
    (hFin : containsFinalizer db databaseFinalizer = false)
    (hdel : db.deletionTimestamp = none) :
    ReconcileDatabaseFinalizer db ⟨⟨d, se, ss, sv, ig, pv⟩, [], tr, sw, cp, kc⟩ =
      (Except.ok (false, { db with finalizers := db.finalizers ++ [databaseFinalizer] }),
       ⟨⟨some { db with finalizers := db.finalizers ++ [databaseFinalizer] },
         se, ss, sv, ig, pv⟩, [], tr, sw, cp, kc⟩) := by
  have hadd : addFinalizer db databaseFinalizer =
      (true, { db with finalizers := db.finalizers ++ [databaseFinalizer] }) := by
    unfold containsFinalizer at hFin
    unfold addFinalizer
    simp only [hFin, Bool.false_eq_true, if_neg]
    simp
  unfold ReconcileDatabaseFinalizer finalizerEnsureMarker finalizerHandleDeletion
  simp [containsFinalizer] at hFin
  simp [containsFinalizer, hFin, hadd, persistRecord, popFault, hdel]

theorem finalStatus_changed (db : Database) (conds : List Condition)
    (d : Option Database) (se : List Secret) (ss : List StatefulSet) (sv : List KSvc)
    (ig : List Ingress) (pv : List PVC) (tr : List Ev) (sw : Nat) (cp : Bool) (kc : Nat)
    (hssc : setStatusCondition db.conditions (availableTrueCond db) = (true, conds)) :
    reconcileFinalStatus db ⟨⟨d, se, ss, sv, ig, pv⟩, [], tr, sw, cp, kc⟩ =
      (Except.ok false,
       ⟨⟨some { db with conditions := conds }, se, ss, sv, ig, pv⟩,
        [], tr, sw + 1, cp, kc⟩) := by
  unfold reconcileFinalStatus
  rw [hssc]
  simp [persistStatus, popFault]

theorem finalStatus_unchanged (db : Database) (conds : List Condition) (st : St)
    (hssc : setStatusCondition db.conditions (availableTrueCond db) = (false, conds)) :
    reconcileFinalStatus db st = (Except.ok false, st) := by
  unfold reconcileFinalStatus
  rw [hssc]
  simp

/-! ## Transfer lemmas: settledness and conditions only depend on the
record core (name, namespace, uid, TypeMeta, spec) -/

theorem allSettled_update_conditions (db : Database) (C : List Condition) (X : Cluster)
    (h : allSettled db X) : allSettled { db with conditions := C } X := h

theorem allSettled_update_finalizers (db : Database) (F : List String) (X : Cluster)
    (h : allSettled db X) : allSettled { db with finalizers := F } X := h

theorem availableTrueCond_update_conditions (db : Database) (C : List Condition) :
    availableTrueCond { db with conditions := C } = availableTrueCond db := rfl

theorem availableTrueCond_update_finalizers (db : Database) (F : List String) :
    availableTrueCond { db with finalizers := F } = availableTrueCond db := rfl

theorem setStatusCondition_singleton_self (c : Condition) :
    setStatusCondition [c] c = (false, [c]) := by
  simp [setStatusCondition, List.find?]

/-- Second-invocation lemma: on a store whose record is initialised, carries
the finalizer marker, is not deleting, already bears the Available/True
condition, and whose child stores are settled, Reconcile changes nothing but
the trace and reports success without requeue. -/
theorem reconcile_fixedpoint (db1 : Database) (se : List Secret) (ss : List StatefulSet)
    (sv : List KSvc) (ig : List Ingress) (pv : List PVC) (tr : List Ev) (sw : Nat)
    (cp : Bool) (kc : Nat)
    (hC : db1.conditions ≠ [])
    (hFin : containsFinalizer db1 databaseFinalizer = true)
    (hdel : db1.deletionTimestamp = none)
    (hSSC : setStatusCondition db1.conditions (availableTrueCond db1) = (false, db1.conditions))
    (hall : allSettled db1 ⟨some db1, se, ss, sv, ig, pv⟩) :
    Reconcile ⟨⟨some db1, se, ss, sv, ig, pv⟩, [], tr, sw, cp, kc⟩ =
      (Except.ok false,
       ⟨⟨some db1, se, ss, sv, ig, pv⟩, [],
        tr ++ [Ev.authSecretRec, Ev.statefulSetRec, Ev.serviceRec, Ev.ingressRec],
        sw, cp, kc⟩) := by
  have h1 := statusInit_noop db1 ⟨⟨some db1, se, ss, sv, ig, pv⟩, [], tr, sw, cp, kc⟩ hC
  have h2 := finalizer_noop db1 ⟨⟨some db1, se, ss, sv, ig, pv⟩, [], tr, sw, cp, kc⟩ hFin hdel
  have h3 := children_run_B db1 (some db1) se ss sv ig pv tr sw cp kc hall
  have h4 := finalStatus_unchanged db1 db1.conditions
    ⟨⟨some db1, se, ss, sv, ig, pv⟩, [],
     tr ++ [Ev.authSecretRec, Ev.statefulSetRec, Ev.serviceRec, Ev.ingressRec],
     sw, cp, kc⟩ hSSC
  simp only [Reconcile, h1, h2, reconcileChildrenAndStatus, h3, h4]

/-- Tail of a fault-free non-deleting invocation: the four child reconcilers
then the final status write, run with a record carrying the marker and no
deletion request, succeed and leave the stored record with all the
fixedpoint properties. -/
theorem establish_tail (dbF : Database) (se : List Secret) (ss : List StatefulSet)
    (sv : List KSvc) (ig : List Ingress) (pv : List PVC) (tr : List Ev) (sw : Nat)
    (cp : Bool) (kc : Nat)
    (hFin : containsFinalizer dbF databaseFinalizer = true)
    (hdel : dbF.deletionTimestamp = none) :
    ∃ db1 S1 S2 V I k2 sw2 tr2,
      reconcileChildrenAndStatus dbF ⟨⟨some dbF, se, ss, sv, ig, pv⟩, [], tr, sw, cp, kc⟩ =
        (Except.ok false, ⟨⟨some db1, S1, S2, V, I, pv⟩, [], tr2, sw2, cp, k2⟩)
      ∧ db1.conditions ≠ []
      ∧ containsFinalizer db1 databaseFinalizer = true
      ∧ db1.deletionTimestamp = none
      ∧ setStatusCondition db1.conditions (availableTrueCond db1) = (false, db1.conditions)
      ∧ allSettled db1 ⟨some db1, S1, S2, V, I, pv⟩ := by
  unfold reconcileChildrenAndStatus
  obtain ⟨S1, S2, V, I, k2, he3, hall⟩ :=
    children_run_A dbF (some dbF) se ss sv ig pv tr sw cp kc
  simp only [he3]
  cases hssc : setStatusCondition dbF.conditions (availableTrueCond dbF) with
  | mk changed conds =>
    cases changed with
    | true =>
        have h4 := finalStatus_changed dbF conds (some dbF) S1 S2 V I pv
          (tr ++ [Ev.authSecretRec, Ev.statefulSetRec, Ev.serviceRec, Ev.ingressRec])
          sw cp k2 hssc
        simp only [h4]
        refine ⟨{ dbF with conditions := conds }, S1, S2, V, I, k2, sw + 1, _, rfl,
                ?_, hFin, hdel, ?_, allSettled_update_conditions dbF conds _ hall⟩
        · have := setStatusCondition_snd_ne_nil dbF.conditions (availableTrueCond dbF)
          rw [hssc] at this
          exact this
        · have hidem := setStatusCondition_idem dbF.conditions (availableTrueCond dbF)
          rw [hssc] at hidem
          exact hidem
    | false =>
        have h4 := finalStatus_unchanged dbF conds
          ⟨⟨some dbF, S1, S2, V, I, pv⟩, [],
           tr ++ [Ev.authSecretRec, Ev.statefulSetRec, Ev.serviceRec, Ev.ingressRec],
           sw, cp, k2⟩ hssc
        simp only [h4]
        obtain ⟨hconds, hne⟩ := setStatusCondition_false_shape hssc
        refine ⟨dbF, S1, S2, V, I, k2, sw, _, rfl, hne, hFin, hdel, ?_, hall⟩
        rw [← hconds] at hssc ⊢
        exact hssc

/-- First-invocation lemma: a fault-free non-deleting invocation succeeds and
leaves the store in the fixedpoint shape of `reconcile_fixedpoint`. -/
theorem reconcile_establishes (db0 : Database) (se : List Secret) (ss : List StatefulSet)
    (sv : List KSvc) (ig : List Ingress) (pv : List PVC) (tr : List Ev) (sw : Nat)
    (cp : Bool) (kc : Nat)
    (hdel : db0.deletionTimestamp = none) :
    ∃ db1 S1 S2 V I k2 sw2 tr2,
      Reconcile ⟨⟨some db0, se, ss, sv, ig, pv⟩, [], tr, sw, cp, kc⟩ =
        (Except.ok false, ⟨⟨some db1, S1, S2, V, I, pv⟩, [], tr2, sw2, cp, k2⟩)
      ∧ db1.conditions ≠ []
      ∧ containsFinalizer db1 databaseFinalizer = true
      ∧ db1.deletionTimestamp = none
      ∧ setStatusCondition db1.conditions (availableTrueCond db1) = (false, db1.conditions)
      ∧ allSettled db1 ⟨some db1, S1, S2, V, I, pv⟩ := by
  cases hc : db0.conditions with
  | nil =>
      have h1 := statusInit_empty db0 (some db0) se ss sv ig pv tr sw cp kc hc
      cases hfin : containsFinalizer { db0 with conditions := [availableUnknownCond] }
          databaseFinalizer with
      | true =>
          have h2 := finalizer_noop { db0 with conditions := [availableUnknownCond] }
            ⟨⟨some { db0 with conditions := [availableUnknownCond] }, se, ss, sv, ig, pv⟩,
             [], tr, sw + 1, cp, kc⟩ hfin hdel
          obtain ⟨db1, S1, S2, V, I, k2, sw2, tr2, heq, hprops⟩ :=
            establish_tail { db0 with conditions := [availableUnknownCond] }
              se ss sv ig pv tr (sw + 1) cp kc hfin hdel
          exact ⟨db1, S1, S2, V, I, k2, sw2, tr2,
                 by simp only [Reconcile, h1, h2, heq], hprops⟩
      | false =>
          have h2 := finalizer_add { db0 with conditions := [availableUnknownCond] }
            (some { db0 with conditions := [availableUnknownCond] })
            se ss sv ig pv tr (sw + 1) cp kc hfin hdel
          have hfinF : containsFinalizer
              { db0 with conditions := [availableUnknownCond],
                         finalizers := db0.finalizers ++ [databaseFinalizer] }
              databaseFinalizer = true := by
            simp [containsFinalizer]
          obtain ⟨db1, S1, S2, V, I, k2, sw2, tr2, heq, hprops⟩ :=
            establish_tail
              { db0 with conditions := [availableUnknownCond],
                         finalizers := db0.finalizers ++ [databaseFinalizer] }
              se ss sv ig pv tr (sw + 1) cp kc hfinF hdel
          exact ⟨db1, S1, S2, V, I, k2, sw2, tr2,
                 by simp only [Reconcile, h1, h2, heq], hprops⟩
  | cons c0 cs =>
      have hcne : db0.conditions ≠ [] := by rw [hc]; exact List.cons_ne_nil c0 cs
      have h1 := statusInit_noop db0
        ⟨⟨some db0, se, ss, sv, ig, pv⟩, [], tr, sw, cp, kc⟩ hcne
      cases hfin : containsFinalizer db0 databaseFinalizer with
      | true =>
          have h2 := finalizer_noop db0
            ⟨⟨some db0, se, ss, sv, ig, pv⟩, [], tr, sw, cp, kc⟩ hfin hdel
          obtain ⟨db1, S1, S2, V, I, k2, sw2, tr2, heq, hprops⟩ :=
            establish_tail db0 se ss sv ig pv tr sw cp kc hfin hdel
          exact ⟨db1, S1, S2, V, I, k2, sw2, tr2,
                 by simp only [Reconcile, h1, h2, heq], hprops⟩
      | false =>
          have h2 := finalizer_add db0 (some db0) se ss sv ig pv tr sw cp kc hfin hdel
          have hfinF : containsFinalizer
              { db0 with finalizers := db0.finalizers ++ [databaseFinalizer] }
              databaseFinalizer = true := by
            simp [containsFinalizer]
          obtain ⟨db1, S1, S2, V, I, k2, sw2, tr2, heq, hprops⟩ :=
            establish_tail { db0 with finalizers := db0.finalizers ++ [databaseFinalizer] }
              se ss sv ig pv tr sw cp kc hfinF hdel
          exact ⟨db1, S1, S2, V, I, k2, sw2, tr2,
                 by simp only [Reconcile, h1, h2, heq], hprops⟩

/-- C1: for every valid desired-state record (present in the store, no
deletion requested) and no injected store faults, invoking Reconcile twice
consecutively with no intervening external change yields, after the second
invocation, a cluster (and hence child-resource specs) identical to the one
after the first, the second invocation performs no additional
status-condition write, and reports success without requeue. -/
theorem C1_reconcile_idempotent (st : St) (db0 : Database)
    (hdb : st.cluster.database = some db0)
    (hdel : db0.deletionTimestamp = none)
    (hf : st.faults = []) :
    (Reconcile (Reconcile st).2).2.cluster = (Reconcile st).2.cluster
    ∧ (Reconcile (Reconcile st).2).2.statusWrites = (Reconcile st).2.statusWrites
    ∧ (Reconcile (Reconcile st).2).1 = Except.ok false := by
  obtain ⟨⟨d, se, ss, sv, ig, pv⟩, fa, tr, sw, cp, kc⟩ := st
  simp only [] at hdb hf
  subst hdb
  subst hf
  obtain ⟨db1, S1, S2, V, I, k2, sw2, tr2, heq, hC, hFin, hdelF, hSSC, hall⟩ :=
    reconcile_establishes db0 se ss sv ig pv tr sw cp kc hdel
  simp only [heq]
  simp only [reconcile_fixedpoint db1 S1 S2 V I pv tr2 sw2 cp k2 hC hFin hdelF hSSC hall]
  exact ⟨trivial, trivial, trivial⟩

/-! ## Frame lemmas under arbitrary injected faults -/

theorem writeFallible_frame (f : Cluster → Cluster) (st : St) :
    (writeFallible f st).2.trace = st.trace
    ∧ (writeFallible f st).2.conflictOnPersist = st.conflictOnPersist
    ∧ (writeFallible f st).2.statusWrites = st.statusWrites
    ∧ (writeFallible f st).2.keyCtr = st.keyCtr := by
  unfold writeFallible popFault
  cases hfa : st.faults with
  | nil => simp
  | cons x rest => cases x <;> simp

theorem writeFallible_secrets_of_database (f : Cluster → Cluster)
    (hdb : ∀ c, (f c).database = c.database) (st : St) :
    (writeFallible f st).2.cluster.database = st.cluster.database := by
  unfold writeFallible popFault
  cases hfa : st.faults with
  | nil => simp [hdb]
  | cons x rest => cases x <;> simp [hdb]

/-- The secret reconciler always appends exactly its entry event to the trace
and never touches the conflict flag, the status-write counter or the stored
record. -/
theorem secrets_frame (db : Database) (st : St) :
    (ReconcileDatabaseSecrets db st).2.trace = st.trace ++ [Ev.authSecretRec]
    ∧ (ReconcileDatabaseSecrets db st).2.conflictOnPersist = st.conflictOnPersist
    ∧ (ReconcileDatabaseSecrets db st).2.cluster.database = st.cluster.database := by
  unfold ReconcileDatabaseSecrets
  cases hfind : findSecret st.cluster db.ns (GetAuthSecretName db) with
  | some found =>
      cases hauth : db.spec.auth with
      | true => simp [hfind]
      | false =>
          simp only [hfind, hauth, Bool.false_eq_true, if_neg]
          cases hw : writeFallible (clusterDeleteSecret db.ns (GetAuthSecretName db))
              { st with trace := st.trace ++ [Ev.authSecretRec] } with
          | mk r st1 =>
            have hfr := writeFallible_frame (clusterDeleteSecret db.ns (GetAuthSecretName db))
              { st with trace := st.trace ++ [Ev.authSecretRec] }
            have hdbf := writeFallible_secrets_of_database
              (clusterDeleteSecret db.ns (GetAuthSecretName db)) (fun c => rfl)
              { st with trace := st.trace ++ [Ev.authSecretRec] }
            rw [hw] at hfr hdbf
            cases r <;> simp_all
  | none =>
      cases hauth : db.spec.auth with
      | false => simp [hfind, hauth]
      | true =>
          simp only [hfind, hauth, if_pos]
          cases hgen : generateAsymmetricKeys { st with trace := st.trace ++ [Ev.authSecretRec] } with
          | mk keys st1 =>
            have hst1 : st1 = { st with trace := st.trace ++ [Ev.authSecretRec], keyCtr := st.keyCtr + 1 } := by
              unfold generateAsymmetricKeys at hgen
              injection hgen with h1 h2
              exact h2.symm
            dsimp only
            cases hw : writeFallible (clusterCreateSecret
                { name := GetAuthSecretName db, ns := db.ns,
                  ownerReferences := [ownerRefConst db],
                  data := [("PUBLIC_KEY", b64url keys.1), ("PRIVATE_KEY", b64url keys.2)] }) st1 with
            | mk r st2 =>
              have hfr := writeFallible_frame (clusterCreateSecret
                { name := GetAuthSecretName db, ns := db.ns,
                  ownerReferences := [ownerRefConst db],
                  data := [("PUBLIC_KEY", b64url keys.1), ("PRIVATE_KEY", b64url keys.2)] }) st1
              have hdbf := writeFallible_secrets_of_database (clusterCreateSecret
                { name := GetAuthSecretName db, ns := db.ns,
                  ownerReferences := [ownerRefConst db],
                  data := [("PUBLIC_KEY", b64url keys.1), ("PRIVATE_KEY", b64url keys.2)] })
                (fun c => rfl) st1
              rw [hw] at hfr hdbf
              subst hst1
              cases r <;> simp_all

theorem sts_frame (db : Database) (st : St) :
    (ReconcileStatefulSets db st).2.trace = st.trace ++ [Ev.statefulSetRec]
    ∧ (ReconcileStatefulSets db st).2.conflictOnPersist = st.conflictOnPersist
    ∧ (ReconcileStatefulSets db st).2.cluster.database = st.cluster.database := by
  unfold ReconcileStatefulSets
  cases hfind : findStatefulSet st.cluster db.ns db.name with
  | some x =>
      simp only [hfind]
      cases hw : writeFallible
          (clusterUpdateStatefulSet db.ns db.name (ConstructPrimaryStatefulSet db))
          { st with trace := st.trace ++ [Ev.statefulSetRec] } with
      | mk r st2 =>
        have hfr := writeFallible_frame
          (clusterUpdateStatefulSet db.ns db.name (ConstructPrimaryStatefulSet db))
          { st with trace := st.trace ++ [Ev.statefulSetRec] }
        have hdbf := writeFallible_secrets_of_database
          (clusterUpdateStatefulSet db.ns db.name (ConstructPrimaryStatefulSet db))
          (fun c => rfl) { st with trace := st.trace ++ [Ev.statefulSetRec] }
        rw [hw] at hfr hdbf
        cases r <;> simp_all
  | none =>
      simp only [hfind]
      cases hw1 : writeFallible (clusterCreateStatefulSet (ConstructPrimaryStatefulSet db))
          { st with trace := st.trace ++ [Ev.statefulSetRec] } with
      | mk r1 st1 =>
        have hfr1 := writeFallible_frame (clusterCreateStatefulSet (ConstructPrimaryStatefulSet db))
          { st with trace := st.trace ++ [Ev.statefulSetRec] }
        have hdbf1 := writeFallible_secrets_of_database
          (clusterCreateStatefulSet (ConstructPrimaryStatefulSet db))
          (fun c => rfl) { st with trace := st.trace ++ [Ev.statefulSetRec] }
        rw [hw1] at hfr1 hdbf1
        cases r1 with
        | some e => simp_all
        | none =>
            cases hw2 : writeFallible
                (clusterUpdateStatefulSet db.ns db.name (ConstructPrimaryStatefulSet db)) st1 with
            | mk r2 st2 =>
              have hfr2 := writeFallible_frame
                (clusterUpdateStatefulSet db.ns db.name (ConstructPrimaryStatefulSet db)) st1
              have hdbf2 := writeFallible_secrets_of_database
                (clusterUpdateStatefulSet db.ns db.name (ConstructPrimaryStatefulSet db))
                (fun c => rfl) st1
              rw [hw2] at hfr2 hdbf2
              cases r2 <;> simp_all

theorem svcOne_frame (db : Database) (headless : Bool) (st : St) :
    (reconcileServiceOne db headless st).2.trace = st.trace
    ∧ (reconcileServiceOne db headless st).2.conflictOnPersist = st.conflictOnPersist
    ∧ (reconcileServiceOne db headless st).2.cluster.database = st.cluster.database := by
  unfold reconcileServiceOne
  cases hfind : findService st.cluster db.ns (GetDatabaseServiceName db headless) with
  | some x =>
      simp only [hfind]
      cases hw : writeFallible (clusterUpdateService db.ns (GetDatabaseServiceName db headless)
          (ConstructService db headless)) st with
      | mk r st2 =>
        have hfr := writeFallible_frame (clusterUpdateService db.ns
          (GetDatabaseServiceName db headless) (ConstructService db headless)) st
        have hdbf := writeFallible_secrets_of_database (clusterUpdateService db.ns
          (GetDatabaseServiceName db headless) (ConstructService db headless))
          (fun c => rfl) st
        rw [hw] at hfr hdbf
        cases r <;> simp_all
  | none =>
      simp only [hfind]
      cases hw1 : writeFallible (clusterCreateService (ConstructService db headless)) st with
      | mk r1 st1 =>
        have hfr1 := writeFallible_frame (clusterCreateService (ConstructService db headless)) st
        have hdbf1 := writeFallible_secrets_of_database
          (clusterCreateService (ConstructService db headless)) (fun c => rfl) st
        rw [hw1] at hfr1 hdbf1
        cases r1 with
        | some e => simp_all
        | none =>
            cases hw2 : writeFallible (clusterUpdateService db.ns
                (GetDatabaseServiceName db headless) (ConstructService db headless)) st1 with
            | mk r2 st2 =>
              have hfr2 := writeFallible_frame (clusterUpdateService db.ns
                (GetDatabaseServiceName db headless) (ConstructService db headless)) st1
              have hdbf2 := writeFallible_secrets_of_database (clusterUpdateService db.ns
                (GetDatabaseServiceName db headless) (ConstructService db headless))
                (fun c => rfl) st1
              rw [hw2] at hfr2 hdbf2
              cases r2 <;> simp_all

theorem svc_frame (db : Database) (st : St) :
    (ReconcileDatabaseService db st).2.trace = st.trace ++ [Ev.serviceRec]
    ∧ (ReconcileDatabaseService db st).2.conflictOnPersist = st.conflictOnPersist
    ∧ (ReconcileDatabaseService db st).2.cluster.database = st.cluster.database := by
  unfold ReconcileDatabaseService
  cases h1 : reconcileServiceOne db true { st with trace := st.trace ++ [Ev.serviceRec] } with
  | mk r1 st1 =>
    have hfr1 := svcOne_frame db true { st with trace := st.trace ++ [Ev.serviceRec] }
    rw [h1] at hfr1
    cases r1 with
    | error e => simp_all
    | ok v1 =>
        cases h2 : reconcileServiceOne db false st1 with
        | mk r2 st2 =>
          have hfr2 := svcOne_frame db false st1
          rw [h2] at hfr2
          cases r2 <;> simp_all

theorem ing_frame (db : Database) (st : St) :
    (ReconcileDatabaseIngress db st).2.trace = st.trace ++ [Ev.ingressRec]
    ∧ (ReconcileDatabaseIngress db st).2.conflictOnPersist = st.conflictOnPersist
    ∧ (ReconcileDatabaseIngress db st).2.cluster.database = st.cluster.database := by
  unfold ReconcileDatabaseIngress
  cases hfind : findIngress st.cluster db.ns (GetDatabaseIngressName db) with
  | none =>
      cases hcfg : db.spec.ingress with
      | none => simp [hfind, hcfg]
      | some cfg =>
          simp only [hfind, hcfg]
          cases hw1 : writeFallible (clusterCreateIngress (ConstructDatabaseIngress db))
              { st with trace := st.trace ++ [Ev.ingressRec] } with
          | mk r1 st1 =>
            have hfr1 := writeFallible_frame (clusterCreateIngress (ConstructDatabaseIngress db))
              { st with trace := st.trace ++ [Ev.ingressRec] }
            have hdbf1 := writeFallible_secrets_of_database
              (clusterCreateIngress (ConstructDatabaseIngress db)) (fun c => rfl)
              { st with trace := st.trace ++ [Ev.ingressRec] }
            rw [hw1] at hfr1 hdbf1
            cases r1 with
            | some e => simp_all
            | none =>
                cases hw2 : writeFallible (clusterUpdateIngress db.ns (GetDatabaseIngressName db)
                    (ConstructDatabaseIngress db)) st1 with
                | mk r2 st2 =>
                  have hfr2 := writeFallible_frame (clusterUpdateIngress db.ns
                    (GetDatabaseIngressName db) (ConstructDatabaseIngress db)) st1
                  have hdbf2 := writeFallible_secrets_of_database (clusterUpdateIngress db.ns
                    (GetDatabaseIngressName db) (ConstructDatabaseIngress db)) (fun c => rfl) st1
                  rw [hw2] at hfr2 hdbf2
                  cases r2 with
                  | none => simp_all
                  | some e => cases e <;> simp_all
  | some x =>
      cases hcfg : db.spec.ingress with
      | none =>
          simp only [hfind, hcfg]
          cases hw : writeFallible (clusterDeleteIngress db.ns (GetDatabaseIngressName db))
              { st with trace := st.trace ++ [Ev.ingressRec] } with
          | mk r st2 =>
            have hfr := writeFallible_frame (clusterDeleteIngress db.ns (GetDatabaseIngressName db))
              { st with trace := st.trace ++ [Ev.ingressRec] }
            have hdbf := writeFallible_secrets_of_database
              (clusterDeleteIngress db.ns (GetDatabaseIngressName db)) (fun c => rfl)
              { st with trace := st.trace ++ [Ev.ingressRec] }
            rw [hw] at hfr hdbf
            cases r <;> simp_all
      | some cfg =>
          simp only [hfind, hcfg]
          cases hw : writeFallible (clusterUpdateIngress db.ns (GetDatabaseIngressName db)
              (ConstructDatabaseIngress db)) { st with trace := st.trace ++ [Ev.ingressRec] } with
          | mk r st2 =>
            have hfr := writeFallible_frame (clusterUpdateIngress db.ns (GetDatabaseIngressName db)
              (ConstructDatabaseIngress db)) { st with trace := st.trace ++ [Ev.ingressRec] }
            have hdbf := writeFallible_secrets_of_database (clusterUpdateIngress db.ns
              (GetDatabaseIngressName db) (ConstructDatabaseIngress db)) (fun c => rfl)
              { st with trace := st.trace ++ [Ev.ingressRec] }
            rw [hw] at hfr hdbf
            cases r with
            | none => simp_all
            | some e => cases e <;> simp_all

theorem writeFallible_cluster_inv {α : Type} (f : Cluster → Cluster) (g : Cluster → α)
    (hg : ∀ c, g (f c) = g c) (st : St) :
    g (writeFallible f st).2.cluster = g st.cluster := by
  unfold writeFallible popFault
  cases hfa : st.faults with
  | nil => simp [hg]
  | cons x rest => cases x <;> simp [hg]

theorem persistStatus_frame (db : Database) (st : St) :
    (persistStatus db st).2.trace = st.trace
    ∧ (persistStatus db st).2.cluster.secrets = st.cluster.secrets
    ∧ (persistStatus db st).2.keyCtr = st.keyCtr := by
  unfold persistStatus popFault
  cases hfa : st.faults with
  | nil => simp
  | cons x rest => cases x with
      | none => simp
      | some e => cases e <;> simp

theorem persistRecord_frame (db : Database) (st : St) :
    (persistRecord db st).2.trace = st.trace
    ∧ (persistRecord db st).2.cluster.secrets = st.cluster.secrets
    ∧ (persistRecord db st).2.statusWrites = st.statusWrites := by
  unfold persistRecord popFault
  cases hfa : st.faults with
  | nil => simp
  | cons x rest => cases x with
      | none => simp
      | some e => cases e <;> simp

theorem persistStatus_conflict (db : Database) (st : St) :
    ((persistStatus db st).1 = some ErrKind.conflict →
      (persistStatus db st).2.conflictOnPersist = true)
    ∧ ((persistStatus db st).1 ≠ some ErrKind.conflict →
      (persistStatus db st).2.conflictOnPersist = st.conflictOnPersist) := by
  unfold persistStatus popFault
  cases hfa : st.faults with
  | nil => simp
  | cons x rest => cases x with
      | none => simp
      | some e => cases e <;> simp

theorem persistRecord_conflict (db : Database) (st : St) :
    ((persistRecord db st).1 = some ErrKind.conflict →
      (persistRecord db st).2.conflictOnPersist = true)
    ∧ ((persistRecord db st).1 ≠ some ErrKind.conflict →
      (persistRecord db st).2.conflictOnPersist = st.conflictOnPersist) := by
  unfold persistRecord popFault
  cases hfa : st.faults with
  | nil => simp
  | cons x rest => cases x with
      | none => simp
      | some e => cases e <;> simp

theorem deleteListedPVCs_frame (db : Database) (l : List PVC) :
    ∀ st : St, (deleteListedPVCs db l st).trace = st.trace
    ∧ (deleteListedPVCs db l st).conflictOnPersist = st.conflictOnPersist
    ∧ (deleteListedPVCs db l st).cluster.secrets = st.cluster.secrets
    ∧ (deleteListedPVCs db l st).cluster.database = st.cluster.database := by
  induction l with
  | nil => intro st; exact ⟨rfl, rfl, rfl, rfl⟩
  | cons p rest ih =>
      intro st
      unfold deleteListedPVCs
      cases hw : writeFallible (clusterDeletePVC p.ns p.name) st with
      | mk r st1 =>
        have hfr := writeFallible_frame (clusterDeletePVC p.ns p.name) st
        have hsec := writeFallible_cluster_inv (clusterDeletePVC p.ns p.name)
          (fun c => c.secrets) (fun c => rfl) st
        have hdb2 := writeFallible_cluster_inv (clusterDeletePVC p.ns p.name)
          (fun c => c.database) (fun c => rfl) st
        rw [hw] at hfr hsec hdb2
        obtain ⟨ht, hc, hs, hd⟩ := ih st1
        exact ⟨ht.trans hfr.1, hc.trans hfr.2.1, hs.trans hsec, hd.trans hdb2⟩

theorem deleteDatabasePVC_frame (db : Database) (st : St) :
    (DeleteDatabasePVC db st).2.trace = st.trace ++ [Ev.pvcCleanupDone]
    ∧ (DeleteDatabasePVC db st).2.conflictOnPersist = st.conflictOnPersist
    ∧ (DeleteDatabasePVC db st).2.cluster.secrets = st.cluster.secrets
    ∧ (DeleteDatabasePVC db st).2.cluster.database = st.cluster.database := by
  unfold DeleteDatabasePVC
  obtain ⟨ht, hc, hs, hd⟩ := deleteListedPVCs_frame db
    (st.cluster.pvcs.filter (selectorMatches [])) st
  exact ⟨by simp [ht], by simp [hc], by simp [hs], by simp [hd]⟩

theorem doFinalizerOps_frame (db : Database) (st : St) :
    (DoFinalizerOperationsForDatabase db st).trace = st.trace ++ [Ev.pvcCleanupDone]
    ∧ (DoFinalizerOperationsForDatabase db st).conflictOnPersist = st.conflictOnPersist
    ∧ (DoFinalizerOperationsForDatabase db st).cluster.secrets = st.cluster.secrets
    ∧ (DoFinalizerOperationsForDatabase db st).cluster.database = st.cluster.database := by
  unfold DoFinalizerOperationsForDatabase
  cases hw : DeleteDatabasePVC db st with
  | mk r st1 =>
    have hfr := deleteDatabasePVC_frame db st
    rw [hw] at hfr
    exact hfr

theorem statusInit_trace (db : Database) (st : St) :
    (reconcileStatusInit db st).2.trace = st.trace := by
  unfold reconcileStatusInit
  cases hc : db.conditions with
  | cons x xs => simp
  | nil =>
      simp only [List.isEmpty_nil, if_pos]
      cases hssc : setStatusCondition [] availableUnknownCond with
      | mk changed conds =>
        cases changed with
        | false => simp
        | true =>
            simp only [if_pos]
            cases hp : persistStatus { db with conditions := conds } st with
            | mk r st1 =>
              have hfr := persistStatus_frame { db with conditions := conds } st
              rw [hp] at hfr
              cases r with
              | none => simp_all
              | some e => cases e <;> simp_all

theorem finalStatus_trace (db : Database) (st : St) :
    (reconcileFinalStatus db st).2.trace = st.trace := by
  unfold reconcileFinalStatus
  cases hssc : setStatusCondition db.conditions (availableTrueCond db) with
  | mk changed conds =>
    cases changed with
    | false => simp
    | true =>
        simp only [if_pos]
        cases hp : persistStatus { db with conditions := conds } st with
        | mk r st1 =>
          have hfr := persistStatus_frame { db with conditions := conds } st
          rw [hp] at hfr
          cases r with
          | none => simp_all
          | some e => cases e <;> simp_all

/-- The child-reconciler sequence appends the entry events of the children it
actually invoked, in the fixed order; a full success appends all four. -/
theorem children_trace (db : Database) (st : St) :
    ∃ t u, (runChildReconcilers db st).2.trace = st.trace ++ t
      ∧ t ++ u = [Ev.authSecretRec, Ev.statefulSetRec, Ev.serviceRec, Ev.ingressRec]
      ∧ ((runChildReconcilers db st).1 = Except.ok () →
          (runChildReconcilers db st).2.trace = st.trace
            ++ [Ev.authSecretRec, Ev.statefulSetRec, Ev.serviceRec, Ev.ingressRec]) := by
  unfold runChildReconcilers
  cases h1 : ReconcileDatabaseSecrets db st with
  | mk r1 st1 =>
    have hf1 := (secrets_frame db st).1
    rw [h1] at hf1
    simp only at hf1
    cases r1 with
    | error e =>
        simp only [h1]
        exact ⟨[Ev.authSecretRec], [Ev.statefulSetRec, Ev.serviceRec, Ev.ingressRec],
               hf1, rfl, by simp⟩
    | ok v1 =>
      simp only [h1]
      cases h2 : ReconcileStatefulSets db st1 with
      | mk r2 st2 =>
        have hf2 := (sts_frame db st1).1
        rw [h2] at hf2
        simp only at hf2
        have ht2 : st2.trace = st.trace ++ [Ev.authSecretRec, Ev.statefulSetRec] := by
          rw [hf2, hf1, List.append_assoc]
          rfl
        cases r2 with
        | error e =>
            simp only [h2]
            exact ⟨[Ev.authSecretRec, Ev.statefulSetRec], [Ev.serviceRec, Ev.ingressRec],
                   ht2, rfl, by simp⟩
        | ok v2 =>
          simp only [h2]
          cases h3 : ReconcileDatabaseService db st2 with
          | mk r3 st3 =>
            have hf3 := (svc_frame db st2).1
            rw [h3] at hf3
            simp only at hf3
            have ht3 : st3.trace = st.trace
                ++ [Ev.authSecretRec, Ev.statefulSetRec, Ev.serviceRec] := by
              rw [hf3, ht2, List.append_assoc]
              rfl
            cases r3 with
            | error e =>
                simp only [h3]
                exact ⟨[Ev.authSecretRec, Ev.statefulSetRec, Ev.serviceRec], [Ev.ingressRec],
                       ht3, rfl, by simp⟩
            | ok v3 =>
              simp only [h3]
              cases h4 : ReconcileDatabaseIngress db st3 with
              | mk r4 st4 =>
                have hf4 := (ing_frame db st3).1
                rw [h4] at hf4
                simp only at hf4
                have ht4 : st4.trace = st.trace
                    ++ [Ev.authSecretRec, Ev.statefulSetRec, Ev.serviceRec, Ev.ingressRec] := by
                  rw [hf4, ht3, List.append_assoc]
                  rfl
                cases r4 with
                | error e =>
                    simp only [h4]
                    exact ⟨[Ev.authSecretRec, Ev.statefulSetRec, Ev.serviceRec, Ev.ingressRec],
                           [], ht4, rfl, by simp⟩
                | ok v4 =>
                    simp only [h4]
                    exact ⟨[Ev.authSecretRec, Ev.statefulSetRec, Ev.serviceRec, Ev.ingressRec],
                           [], ht4, rfl, fun _ => ht4⟩

/-! ## Finalizer frame lemmas -/

theorem em_frame (db0 : Database) (st0 : St) :
    (finalizerEnsureMarker db0 st0).2.trace = st0.trace
    ∧ (finalizerEnsureMarker db0 st0).2.cluster.secrets = st0.cluster.secrets := by
  unfold finalizerEnsureMarker
  cases hc : containsFinalizer db0 databaseFinalizer with
  | true => simp
  | false =>
      simp only [hc, Bool.false_eq_true, if_neg]
      cases hadd : addFinalizer db0 databaseFinalizer with
      | mk added db1 =>
        cases added with
        | false => simp
        | true =>
            cases hp : persistRecord db1 st0 with
            | mk r st1 =>
              have hfr := persistRecord_frame db1 st0
              rw [hp] at hfr
              cases r with
              | none => simp_all
              | some e => cases e <;> simp_all

theorem em_dts (db0 : Database) (st0 : St) :
    ∀ b d1 st1, finalizerEnsureMarker db0 st0 = (Except.ok (b, d1), st1) →
      d1.deletionTimestamp = db0.deletionTimestamp := by
  intro b d1 st1 h
  unfold finalizerEnsureMarker at h
  cases hc : containsFinalizer db0 databaseFinalizer with
  | true =>
      rw [hc] at h
      simp only [if_pos] at h
      cases h
      rfl
  | false =>
      rw [hc] at h
      simp only [Bool.false_eq_true, if_neg] at h
      have haddEq : addFinalizer db0 databaseFinalizer =
          (true, { db0 with finalizers := db0.finalizers ++ [databaseFinalizer] }) := by
        unfold addFinalizer
        rw [show db0.finalizers.contains databaseFinalizer = false from hc]
        simp
      rw [haddEq] at h
      simp only at h
      cases hp : persistRecord
          { db0 with finalizers := db0.finalizers ++ [databaseFinalizer] } st0 with
      | mk r st2 =>
        rw [hp] at h
        cases r with
        | none => cases h; rfl
        | some e =>
            cases e with
            | conflict => cases h; rfl
            | notFound => cases h
            | fatal => cases h

theorem fhd_nondeleting (db1 : Database) (st1 : St)
    (hdel : db1.deletionTimestamp = none) :
    finalizerHandleDeletion db1 st1 = (Except.ok (false, db1), st1) := by
  unfold finalizerHandleDeletion
  simp [hdel]

/-- In a non-deleting invocation the finalizer step adds no trace event. -/
theorem finalizer_trace_nondeleting (db0 : Database) (st0 : St)
    (hdel : db0.deletionTimestamp = none) :
    (ReconcileDatabaseFinalizer db0 st0).2.trace = st0.trace := by
  unfold ReconcileDatabaseFinalizer
  cases hem : finalizerEnsureMarker db0 st0 with
  | mk r st1 =>
    have hfr := em_frame db0 st0
    rw [hem] at hfr
    cases r with
    | error e => simp only [hem]; exact hfr.1
    | ok bd =>
        cases bd with
        | mk b d1 =>
          cases b with
          | true => simp only [hem]; exact hfr.1
          | false =>
              simp only [hem]
              have hd := em_dts db0 st0 false d1 st1 hem
              rw [fhd_nondeleting d1 st1 (by rw [hd, hdel])]
              exact hfr.1

theorem spc_frame (db2 : Database) (changed : Bool) (st : St) :
    (statusPersistIfChanged db2 changed st).2.trace = st.trace
    ∧ (statusPersistIfChanged db2 changed st).2.cluster.secrets = st.cluster.secrets := by
  unfold statusPersistIfChanged
  cases changed with
  | false => simp
  | true =>
      simp only [if_pos]
      cases hp : persistStatus db2 st with
      | mk r st2 =>
        have hfr := persistStatus_frame db2 st
        rw [hp] at hfr
        cases r with
        | none => simp_all
        | some e => cases e <;> simp_all

theorem frp_frame (db3 : Database) (st4 : St) :
    (finalizerRemoveAndPersist db3 st4).2.cluster.secrets = st4.cluster.secrets
    ∧ ((finalizerRemoveAndPersist db3 st4).2.trace = st4.trace
        ∨ (finalizerRemoveAndPersist db3 st4).2.trace = st4.trace ++ [Ev.finalizerRemoved]) := by
  unfold finalizerRemoveAndPersist
  cases hrem : removeFinalizer db3 databaseFinalizer with
  | mk removed db4 =>
    cases removed with
    | false => simp
    | true =>
        cases hp : persistRecord db4 st4 with
        | mk r st5 =>
          have hfr := persistRecord_frame db4 st4
          rw [hp] at hfr
          cases r with
          | none => simp_all
          | some e => cases e <;> simp_all

theorem ff_frame (db1 : Database) (st1 : St) :
    (finalizerFinalize db1 st1).2.cluster.secrets = st1.cluster.secrets := by
  unfold finalizerFinalize
  cases hssc : setStatusCondition db1.conditions (degradedUnknownCond db1) with
  | mk changed conds1 =>
    cases h1 : statusPersistIfChanged { db1 with conditions := conds1 } changed st1 with
    | mk r1 st2 =>
      have hfr1 := spc_frame { db1 with conditions := conds1 } changed st1
      rw [h1] at hfr1
      cases r1 with
      | error e =>
          cases e <;> simp_all
      | ok u =>
          simp only [h1]
          have hdo := doFinalizerOps_frame { db1 with conditions := conds1 } st2
          cases hssc2 : setStatusCondition conds1 (degradedTrueCond { db1 with conditions := conds1 }) with
          | mk changed2 conds2 =>
            cases h2 : statusPersistIfChanged
                { db1 with conditions := conds2 } changed2
                (DoFinalizerOperationsForDatabase { db1 with conditions := conds1 } st2) with
            | mk r2 st4 =>
              have hfr2 := spc_frame { db1 with conditions := conds2 } changed2
                (DoFinalizerOperationsForDatabase { db1 with conditions := conds1 } st2)
              rw [h2] at hfr2
              cases r2 with
              | error e => cases e <;> simp_all
              | ok u2 =>
                  simp only [h2]
                  have hfrp := frp_frame { db1 with conditions := conds2 } st4
                  simp_all

theorem fhd_secrets (db1 : Database) (st1 : St) :
    (finalizerHandleDeletion db1 st1).2.cluster.secrets = st1.cluster.secrets := by
  unfold finalizerHandleDeletion
  cases hm : db1.deletionTimestamp.getD 0 != 0 with
  | false => simp [hm]
  | true =>
      cases hc : containsFinalizer db1 databaseFinalizer with
      | false => simp [hm, hc]
      | true => simpa [hm, hc] using ff_frame db1 st1

/-- The finalizer step never writes to the secret store: in particular the
finalization path does not delete the AuthSecret. -/
theorem finalizer_secrets (db0 : Database) (st0 : St) :
    (ReconcileDatabaseFinalizer db0 st0).2.cluster.secrets = st0.cluster.secrets := by
  unfold ReconcileDatabaseFinalizer
  cases hem : finalizerEnsureMarker db0 st0 with
  | mk r st1 =>
    have hfr := em_frame db0 st0
    rw [hem] at hfr
    cases r with
    | error e => simp only [hem]; exact hfr.2
    | ok bd =>
        cases bd with
        | mk b d1 =>
          cases b with
          | true => simp only [hem]; exact hfr.2
          | false =>
              simp only [hem]
              exact (fhd_secrets d1 st1).trans hfr.2

theorem ff_trace_shape (db1 : Database) (st1 : St) (htr : st1.trace = []) :
    Ev.finalizerRemoved ∈ (finalizerFinalize db1 st1).2.trace →
    (finalizerFinalize db1 st1).2.trace = [Ev.pvcCleanupDone, Ev.finalizerRemoved] := by
  unfold finalizerFinalize
  cases hssc : setStatusCondition db1.conditions (degradedUnknownCond db1) with
  | mk changed conds1 =>
    cases h1 : statusPersistIfChanged { db1 with conditions := conds1 } changed st1 with
    | mk r1 st2 =>
      have hfr1 := spc_frame { db1 with conditions := conds1 } changed st1
      rw [h1] at hfr1
      have ht2 : st2.trace = [] := by rw [hfr1.1, htr]
      cases r1 with
      | error e => cases e <;> simp_all
      | ok u =>
          simp only [h1]
          have hdo := doFinalizerOps_frame { db1 with conditions := conds1 } st2
          have ht3 : (DoFinalizerOperationsForDatabase { db1 with conditions := conds1 } st2).trace
              = [Ev.pvcCleanupDone] := by rw [hdo.1, ht2]; rfl
          cases hssc2 : setStatusCondition conds1
              (degradedTrueCond { db1 with conditions := conds1 }) with
          | mk changed2 conds2 =>
            cases h2 : statusPersistIfChanged { db1 with conditions := conds2 } changed2
                (DoFinalizerOperationsForDatabase { db1 with conditions := conds1 } st2) with
            | mk r2 st4 =>
              have hfr2 := spc_frame { db1 with conditions := conds2 } changed2
                (DoFinalizerOperationsForDatabase { db1 with conditions := conds1 } st2)
              rw [h2] at hfr2
              have ht4 : st4.trace = [Ev.pvcCleanupDone] := by rw [hfr2.1, ht3]
              cases r2 with
              | error e => cases e <;> simp_all
              | ok u2 =>
                  simp only [h2]
                  unfold finalizerRemoveAndPersist
                  cases hrem : removeFinalizer { db1 with conditions := conds2 }
                      databaseFinalizer with
                  | mk removed db4 =>
                    cases removed with
                    | false => simp_all
                    | true =>
                        cases hp : persistRecord db4 st4 with
                        | mk r st5 =>
                          have hfr5 := persistRecord_frame db4 st4
                          rw [hp] at hfr5
                          have ht5 : st5.trace = [Ev.pvcCleanupDone] := by rw [hfr5.1, ht4]
                          cases r with
                          | none => simp_all
                          | some e => cases e <;> simp_all

theorem fhd_trace_shape (db1 : Database) (st1 : St) (htr : st1.trace = []) :
    Ev.finalizerRemoved ∈ (finalizerHandleDeletion db1 st1).2.trace →
    (finalizerHandleDeletion db1 st1).2.trace = [Ev.pvcCleanupDone, Ev.finalizerRemoved] := by
  unfold finalizerHandleDeletion
  cases hm : db1.deletionTimestamp.getD 0 != 0 with
  | false => simp_all
  | true =>
      cases hc : containsFinalizer db1 databaseFinalizer with
      | false => simp_all
      | true => simpa [hm, hc] using ff_trace_shape db1 st1 htr

/-- Once the finalization path persists the marker removal, the PVC cleanup
has already completed: with a fresh trace, the only way the
finalizer-removed event appears is preceded by the pvc-cleanup-done event. -/
theorem finalizer_trace_shape (db0 : Database) (st0 : St) (htr : st0.trace = []) :
    Ev.finalizerRemoved ∈ (ReconcileDatabaseFinalizer db0 st0).2.trace →
    (ReconcileDatabaseFinalizer db0 st0).2.trace = [Ev.pvcCleanupDone, Ev.finalizerRemoved] := by
  unfold ReconcileDatabaseFinalizer
  cases hem : finalizerEnsureMarker db0 st0 with
  | mk r st1 =>
    have hfr := em_frame db0 st0
    rw [hem] at hfr
    have ht1 : st1.trace = [] := by rw [hfr.1, htr]
    cases r with
    | error e => simp_all
    | ok bd =>
        cases bd with
        | mk b d1 =>
          cases b with
          | true => simp_all
          | false =>
              simp only [hem]
              exact fhd_trace_shape d1 st1 ht1

/-! ## Conflict-flag lemmas: a stale-version conflict on a record or status
persist is always turned into a requeue signal -/

theorem statusInit_conflictD (db : Database) (st : St) (h0 : st.conflictOnPersist = false) :
    (∃ d, (reconcileStatusInit db st).1 = Except.ok (true, d))
    ∨ (reconcileStatusInit db st).2.conflictOnPersist = false := by
  unfold reconcileStatusInit
  cases hc : db.conditions with
  | cons x xs => right; simpa using h0
  | nil =>
      simp only [List.isEmpty_nil, if_pos]
      cases hssc : setStatusCondition [] availableUnknownCond with
      | mk changed conds =>
        cases changed with
        | false => right; simpa using h0
        | true =>
            simp only [if_pos]
            cases hp : persistStatus { db with conditions := conds } st with
            | mk r st1 =>
              have hcf := persistStatus_conflict { db with conditions := conds } st
              rw [hp] at hcf
              cases r with
              | none =>
                  right
                  simpa using (hcf.2 (by simp)).trans h0
              | some e =>
                  cases e with
                  | conflict => left; exact ⟨{ db with conditions := conds }, by simp⟩
                  | notFound => right; simpa using (hcf.2 (by simp)).trans h0
                  | fatal => right; simpa using (hcf.2 (by simp)).trans h0

theorem em_conflictD (db0 : Database) (st0 : St) (h0 : st0.conflictOnPersist = false) :
    (∃ d, (finalizerEnsureMarker db0 st0).1 = Except.ok (true, d))
    ∨ (finalizerEnsureMarker db0 st0).2.conflictOnPersist = false := by
  unfold finalizerEnsureMarker
  cases hc : containsFinalizer db0 databaseFinalizer with
  | true => right; simpa using h0
  | false =>
      simp only [hc, Bool.false_eq_true, if_neg]
      cases hadd : addFinalizer db0 databaseFinalizer with
      | mk added db1 =>
        cases added with
        | false => left; exact ⟨db1, by simp⟩
        | true =>
            cases hp : persistRecord db1 st0 with
            | mk r st1 =>
              simp only [hp]
              have hcf := persistRecord_conflict db1 st0
              rw [hp] at hcf
              cases r with
              | none => right; simpa using (hcf.2 (by simp)).trans h0
              | some e =>
                  cases e with
                  | conflict => left; exact ⟨db1, by simp⟩
                  | notFound => right; simpa using (hcf.2 (by simp)).trans h0
                  | fatal => right; simpa using (hcf.2 (by simp)).trans h0

theorem spc_conflictD (db2 : Database) (changed : Bool) (st : St) :
    (statusPersistIfChanged db2 changed st).1 = Except.error ErrKind.conflict
    ∨ (statusPersistIfChanged db2 changed st).2.conflictOnPersist = st.conflictOnPersist := by
  unfold statusPersistIfChanged
  cases changed with
  | false => right; simp
  | true =>
      simp only [if_pos]
      cases hp : persistStatus db2 st with
      | mk r st2 =>
        have hcf := persistStatus_conflict db2 st
        rw [hp] at hcf
        cases r with
        | none => right; simpa using hcf.2 (by simp)
        | some e =>
            cases e with
            | conflict => left; simp
            | notFound => right; simpa using hcf.2 (by simp)
            | fatal => right; simpa using hcf.2 (by simp)

theorem frp_conflictD (db3 : Database) (st4 : St) (h0 : st4.conflictOnPersist = false) :
    (∃ d, (finalizerRemoveAndPersist db3 st4).1 = Except.ok (true, d))
    ∨ (finalizerRemoveAndPersist db3 st4).2.conflictOnPersist = false := by
  unfold finalizerRemoveAndPersist
  cases hrem : removeFinalizer db3 databaseFinalizer with
  | mk removed db4 =>
    cases removed with
    | false => left; exact ⟨db4, by simp⟩
    | true =>
        cases hp : persistRecord db4 st4 with
        | mk r st5 =>
          simp only [hp]
          have hcf := persistRecord_conflict db4 st4
          rw [hp] at hcf
          cases r with
          | none => right; simpa using (hcf.2 (by simp)).trans h0
          | some e =>
              cases e with
              | conflict => left; exact ⟨db4, by simp⟩
              | notFound => right; simpa using (hcf.2 (by simp)).trans h0
              | fatal => right; simpa using (hcf.2 (by simp)).trans h0

theorem ff_conflictD (db1 : Database) (st1 : St) (h0 : st1.conflictOnPersist = false) :
    (∃ d, (finalizerFinalize db1 st1).1 = Except.ok (true, d))
    ∨ (finalizerFinalize db1 st1).2.conflictOnPersist = false := by
  unfold finalizerFinalize
  cases hssc : setStatusCondition db1.conditions (degradedUnknownCond db1) with
  | mk changed conds1 =>
    cases h1 : statusPersistIfChanged { db1 with conditions := conds1 } changed st1 with
    | mk r1 st2 =>
      rcases spc_conflictD { db1 with conditions := conds1 } changed st1 with hcfl | hkeep
      · rw [h1] at hcfl
        simp only at hcfl
        subst hcfl
        simp only [h1]
        exact Or.inl ⟨{ db1 with conditions := conds1 }, rfl⟩
      · rw [h1] at hkeep
        simp only at hkeep
        have hfl2 : st2.conflictOnPersist = false := hkeep.trans h0
        cases r1 with
        | error e =>
            cases e with
            | conflict =>
                simp only [h1]
                exact Or.inl ⟨{ db1 with conditions := conds1 }, rfl⟩
            | notFound => simp only [h1]; right; exact hfl2
            | fatal => simp only [h1]; right; exact hfl2
        | ok u =>
            simp only [h1]
            have hdo := doFinalizerOps_frame { db1 with conditions := conds1 } st2
            have hfl3 : (DoFinalizerOperationsForDatabase
                { db1 with conditions := conds1 } st2).conflictOnPersist = false :=
              hdo.2.1.trans hfl2
            cases hssc2 : setStatusCondition conds1
                (degradedTrueCond { db1 with conditions := conds1 }) with
            | mk changed2 conds2 =>
              cases h2 : statusPersistIfChanged { db1 with conditions := conds2 } changed2
                  (DoFinalizerOperationsForDatabase { db1 with conditions := conds1 } st2) with
              | mk r2 st4 =>
                rcases spc_conflictD { db1 with conditions := conds2 } changed2
                    (DoFinalizerOperationsForDatabase { db1 with conditions := conds1 } st2)
                  with hcfl2 | hkeep2
                · rw [h2] at hcfl2
                  simp only at hcfl2
                  subst hcfl2
                  simp only [h2]
                  exact Or.inl ⟨{ db1 with conditions := conds2 }, rfl⟩
                · rw [h2] at hkeep2
                  simp only at hkeep2
                  have hfl4 : st4.conflictOnPersist = false := hkeep2.trans hfl3
                  cases r2 with
                  | error e =>
                      cases e with
                      | conflict =>
                          simp only [h2]
                          exact Or.inl ⟨{ db1 with conditions := conds2 }, rfl⟩
                      | notFound => simp only [h2]; right; exact hfl4
                      | fatal => simp only [h2]; right; exact hfl4
                  | ok u2 =>
                      simp only [h2]
                      exact frp_conflictD { db1 with conditions := conds2 } st4 hfl4

theorem fhd_conflictD (db1 : Database) (st1 : St) (h0 : st1.conflictOnPersist = false) :
    (∃ d, (finalizerHandleDeletion db1 st1).1 = Except.ok (true, d))
    ∨ (finalizerHandleDeletion db1 st1).2.conflictOnPersist = false := by
  unfold finalizerHandleDeletion
  cases hm : db1.deletionTimestamp.getD 0 != 0 with
  | false => right; simpa using h0
  | true =>
      cases hc : containsFinalizer db1 databaseFinalizer with
      | false => right; simpa [hm, hc] using h0
      | true => simpa [hm, hc] using ff_conflictD db1 st1 h0

theorem finalizer_conflictD (db0 : Database) (st0 : St) (h0 : st0.conflictOnPersist = false) :
    (∃ d, (ReconcileDatabaseFinalizer db0 st0).1 = Except.ok (true, d))
    ∨ (ReconcileDatabaseFinalizer db0 st0).2.conflictOnPersist = false := by
  unfold ReconcileDatabaseFinalizer
  cases hem : finalizerEnsureMarker db0 st0 with
  | mk r st1 =>
    rcases em_conflictD db0 st0 h0 with ⟨d, hreq⟩ | hkeep
    · rw [hem] at hreq
      simp only at hreq
      subst hreq
      simp only [hem]
      exact Or.inl ⟨d, rfl⟩
    · rw [hem] at hkeep
      simp only at hkeep
      cases r with
      | error e => simp only [hem]; right; exact hkeep
      | ok bd =>
          cases bd with
          | mk b d1 =>
            cases b with
            | true => simp only [hem]; exact Or.inl ⟨d1, rfl⟩
            | false =>
                simp only [hem]
                exact fhd_conflictD d1 st1 hkeep

theorem children_conflict (db : Database) (st : St) :
    (runChildReconcilers db st).2.conflictOnPersist = st.conflictOnPersist := by
  unfold runChildReconcilers
  cases h1 : ReconcileDatabaseSecrets db st with
  | mk r1 st1 =>
    have hf1 := (secrets_frame db st).2.1
    rw [h1] at hf1
    simp only at hf1
    cases r1 with
    | error e => simp only [h1]; exact hf1
    | ok v1 =>
      simp only [h1]
      cases h2 : ReconcileStatefulSets db st1 with
      | mk r2 st2 =>
        have hf2 := (sts_frame db st1).2.1
        rw [h2] at hf2
        simp only at hf2
        cases r2 with
        | error e => simp only [h2]; exact hf2.trans hf1
        | ok v2 =>
          simp only [h2]
          cases h3 : ReconcileDatabaseService db st2 with
          | mk r3 st3 =>
            have hf3 := (svc_frame db st2).2.1
            rw [h3] at hf3
            simp only at hf3
            cases r3 with
            | error e => simp only [h3]; exact (hf3.trans hf2).trans hf1
            | ok v3 =>
              simp only [h3]
              cases h4 : ReconcileDatabaseIngress db st3 with
              | mk r4 st4 =>
                have hf4 := (ing_frame db st3).2.1
                rw [h4] at hf4
                simp only at hf4
                cases r4 with
                | error e => simp only [h4]; exact ((hf4.trans hf3).trans hf2).trans hf1
                | ok v4 => simp only [h4]; exact ((hf4.trans hf3).trans hf2).trans hf1

theorem finalStatus_conflictD (db : Database) (st : St) (h0 : st.conflictOnPersist = false) :
    (reconcileFinalStatus db st).1 = Except.ok true
    ∨ (reconcileFinalStatus db st).2.conflictOnPersist = false := by
  unfold reconcileFinalStatus
  cases hssc : setStatusCondition db.conditions (availableTrueCond db) with
  | mk changed conds =>
    cases changed with
    | false => right; simpa using h0
    | true =>
        simp only [if_pos]
        cases hp : persistStatus { db with conditions := conds } st with
        | mk r st1 =>
          have hcf := persistStatus_conflict { db with conditions := conds } st
          rw [hp] at hcf
          cases r with
          | none => right; simpa using (hcf.2 (by simp)).trans h0
          | some e =>
              cases e with
              | conflict => left; simp
              | notFound => right; simpa using (hcf.2 (by simp)).trans h0
              | fatal => right; simpa using (hcf.2 (by simp)).trans h0

theorem childrenAndStatus_conflictD (db : Database) (st : St)
    (h0 : st.conflictOnPersist = false) :
    (reconcileChildrenAndStatus db st).1 = Except.ok true
    ∨ (reconcileChildrenAndStatus db st).2.conflictOnPersist = false := by
  unfold reconcileChildrenAndStatus
  cases h1 : runChildReconcilers db st with
  | mk r1 st3 =>
    have hfl := children_conflict db st
    rw [h1] at hfl
    simp only at hfl
    have hfl3 : st3.conflictOnPersist = false := hfl.trans h0
    cases r1 with
    | error e => simp only [h1]; right; exact hfl3
    | ok u => simp only [h1]; exact finalStatus_conflictD db st3 hfl3

/-- C10: whenever a persist of the record or of its status conditions fails
with a stale-version conflict, Reconcile surfaces no error: the invocation
returns a requeue signal (requeue true, nil error). -/
theorem C10_conflict_requeue (st : St) (h0 : st.conflictOnPersist = false) :
    (Reconcile st).2.conflictOnPersist = true → (Reconcile st).1 = Except.ok true := by
  unfold Reconcile
  cases hdb : st.cluster.database with
  | none =>
      simp only [hdb]
      intro hflag
      rw [h0] at hflag
      cases hflag
  | some db =>
    simp only [hdb]
    cases h1 : reconcileStatusInit db st with
    | mk r1 st1 =>
      rcases statusInit_conflictD db st h0 with ⟨d, hreq⟩ | hkeep
      · rw [h1] at hreq
        simp only at hreq
        subst hreq
        intro _
        rfl
      · rw [h1] at hkeep
        simp only at hkeep
        cases r1 with
        | error e =>
            intro hflag
            rw [hkeep] at hflag
            cases hflag
        | ok bd =>
          cases bd with
          | mk b d1 =>
            cases b with
            | true => intro _; rfl
            | false =>
                cases h2 : ReconcileDatabaseFinalizer d1 st1 with
                | mk r2 st2 =>
                  rcases finalizer_conflictD d1 st1 hkeep with ⟨d2, hreq2⟩ | hkeep2
                  · rw [h2] at hreq2
                    simp only at hreq2
                    subst hreq2
                    simp only [h2]
                    intro _
                    trivial
                  · rw [h2] at hkeep2
                    simp only at hkeep2
                    cases r2 with
                    | error e =>
                        simp only [h2]
                        intro hflag
                        rw [hkeep2] at hflag
                        cases hflag
                    | ok bd2 =>
                      cases bd2 with
                      | mk b2 d2 =>
                        cases b2 with
                        | true => simp only [h2]; intro _; trivial
                        | false =>
                            simp only [h2]
                            rcases childrenAndStatus_conflictD d2 st2 hkeep2 with hok | hfl
                            · intro _
                              exact hok
                            · intro hflag
                              rw [hfl] at hflag
                              cases hflag

theorem statusInit_dts (db : Database) (st : St) :
    ∀ b d1 st1, reconcileStatusInit db st = (Except.ok (b, d1), st1) →
      d1.deletionTimestamp = db.deletionTimestamp := by
  intro b d1 st1 h
  unfold reconcileStatusInit at h
  cases hc : db.conditions with
  | cons x xs =>
      rw [hc] at h
      simp only [List.isEmpty_cons, Bool.false_eq_true, if_neg] at h
      cases h
      rfl
  | nil =>
      rw [hc] at h
      simp only [List.isEmpty_nil, if_pos] at h
      cases hssc : setStatusCondition [] availableUnknownCond with
      | mk changed conds =>
        rw [hssc] at h
        cases changed with
        | false => simp only at h; cases h; rfl
        | true =>
            simp only at h
            cases hp : persistStatus { db with conditions := conds } st with
            | mk r st2 =>
              rw [hp] at h
              cases r with
              | none => cases h; rfl
              | some e =>
                  cases e with
                  | conflict => cases h; rfl
                  | notFound => cases h
                  | fatal => cases h

theorem rcs_trace (db : Database) (st : St) :
    ∃ t u, (reconcileChildrenAndStatus db st).2.trace = st.trace ++ t
      ∧ t ++ u = [Ev.authSecretRec, Ev.statefulSetRec, Ev.serviceRec, Ev.ingressRec]
      ∧ ((reconcileChildrenAndStatus db st).1 = Except.ok false →
          (reconcileChildrenAndStatus db st).2.trace = st.trace
            ++ [Ev.authSecretRec, Ev.statefulSetRec, Ev.serviceRec, Ev.ingressRec]) := by
  unfold reconcileChildrenAndStatus
  cases h : runChildReconcilers db st with
  | mk r st3 =>
    obtain ⟨t, u, ht, htu, hfull⟩ := children_trace db st
    rw [h] at ht hfull
    simp only at ht hfull
    cases r with
    | error e =>
        simp only [h]
        exact ⟨t, u, ht, htu, by simp⟩
    | ok v =>
        simp only [h]
        have hfin := finalStatus_trace db st3
        have ht3 : st3.trace = st.trace
            ++ [Ev.authSecretRec, Ev.statefulSetRec, Ev.serviceRec, Ev.ingressRec] :=
          hfull rfl
        refine ⟨[Ev.authSecretRec, Ev.statefulSetRec, Ev.serviceRec, Ev.ingressRec], [],
                ?_, by simp, fun _ => ?_⟩
        · rw [hfin, ht3]
        · rw [hfin, ht3]

/-- C9: in every non-deleting invocation the child reconcilers run strictly
sequentially in the fixed order AuthSecret, StatefulSet, Service, Ingress
(the trace of invoked children is an initial segment of that order, so an
error in one child prevents every later child from running), and a fully
successful invocation runs all four. -/
theorem C9_children_fixed_order (st : St) (db0 : Database)
    (hdb : st.cluster.database = some db0)
    (hdel : db0.deletionTimestamp = none)
    (htr : st.trace = []) :
    (∃ t u, (Reconcile st).2.trace = t
        ∧ t ++ u = [Ev.authSecretRec, Ev.statefulSetRec, Ev.serviceRec, Ev.ingressRec])
    ∧ ((Reconcile st).1 = Except.ok false →
        (Reconcile st).2.trace
          = [Ev.authSecretRec, Ev.statefulSetRec, Ev.serviceRec, Ev.ingressRec]) := by
  unfold Reconcile
  simp only [hdb]
  cases h1 : reconcileStatusInit db0 st with
  | mk r1 st1 =>
    have ht1 : st1.trace = [] := by
      have := statusInit_trace db0 st
      rw [h1] at this
      simp only at this
      rw [this, htr]
    cases r1 with
    | error e =>
        simp only [h1]
        exact ⟨⟨[], _, ht1, rfl⟩, by simp⟩
    | ok bd =>
      cases bd with
      | mk b d1 =>
        cases b with
        | true =>
            simp only [h1]
            exact ⟨⟨[], _, ht1, rfl⟩, by simp⟩
        | false =>
            simp only [h1]
            have hd1 : d1.deletionTimestamp = none :=
              (statusInit_dts db0 st false d1 st1 h1).trans hdel
            cases h2 : ReconcileDatabaseFinalizer d1 st1 with
            | mk r2 st2 =>
              have ht2 : st2.trace = [] := by
                have := finalizer_trace_nondeleting d1 st1 hd1
                rw [h2] at this
                simp only at this
                rw [this, ht1]
              cases r2 with
              | error e =>
                  simp only [h2]
                  exact ⟨⟨[], _, ht2, rfl⟩, by simp⟩
              | ok bd2 =>
                cases bd2 with
                | mk b2 d2 =>
                  cases b2 with
                  | true =>
                      simp only [h2]
                      exact ⟨⟨[], _, ht2, rfl⟩, by simp⟩
                  | false =>
                      simp only [h2]
                      obtain ⟨t, u, ht, htu, hfull⟩ := rcs_trace d2 st2
                      rw [ht2] at ht hfull
                      simp only [List.nil_append] at ht hfull
                      exact ⟨⟨t, u, ht, htu⟩, hfull⟩

/-- C2 (code evaluated at the failing input): on a record with a deletion
timestamp and the finalizer marker present, Reconcile runs the finalization
path to completion (PVC cleanup, marker removal persisted) and then STILL
invokes all four child reconcilers in the same invocation, returning success
— the finalizer step returns (false, nil) after a successful finalization,
so the engine falls through to the child sequence instead of returning. -/
theorem C2_deleting_invocation_runs_children :
    (Reconcile sampleStDeleting).1 = Except.ok false
    ∧ (Reconcile sampleStDeleting).2.trace
        = [Ev.pvcCleanupDone, Ev.finalizerRemoved, Ev.authSecretRec,
           Ev.statefulSetRec, Ev.serviceRec, Ev.ingressRec] := by
  constructor <;> rfl

/-- C3 counterexample: on a deleting record carrying the finalizer marker
with the AuthSecret present in the store, the finalization step removes the
marker and persists, yet the AuthSecret is still present afterwards — the
finalization path does not delete the AuthSecret. -/
theorem C3_counterexample_secret_survives :
    (ReconcileDatabaseFinalizer sampleDbDeleting sampleStDeleting).2.cluster.secrets
        = [sampleSecret]
    ∧ (ReconcileDatabaseFinalizer sampleDbDeleting sampleStDeleting).2.trace
        = [Ev.pvcCleanupDone, Ev.finalizerRemoved]
    ∧ ((ReconcileDatabaseFinalizer sampleDbDeleting sampleStDeleting).2.cluster.database.map
        (fun d => d.finalizers)) = some [] := by
  refine ⟨rfl, rfl, rfl⟩

/-- C3 amended: once a deletion request is observed on a record carrying the
marker, the marker removal is persisted only after the PVC cleanup has
completed (the cleanup-done event strictly precedes the marker-removal event
in every run), and the finalization path never touches the secret store —
the AuthSecret is left to owner-reference cascade deletion. -/
theorem C3_marker_removal_after_pvc_cleanup (db0 : Database) (st0 : St)
    (htr : st0.trace = []) :
    (Ev.finalizerRemoved ∈ (ReconcileDatabaseFinalizer db0 st0).2.trace →
      (ReconcileDatabaseFinalizer db0 st0).2.trace
        = [Ev.pvcCleanupDone, Ev.finalizerRemoved])
    ∧ (ReconcileDatabaseFinalizer db0 st0).2.cluster.secrets = st0.cluster.secrets :=
  ⟨finalizer_trace_shape db0 st0 htr, finalizer_secrets db0 st0⟩

/-- C4 (code evaluated at the failing input): the PVC listed alongside the
labelled one carries no managed-by label for the record, yet DeleteDatabasePVC
deletes every PVC in the store — the requirement built from the managed-by
label is discarded because labels.Selector.Add returns a new selector, so the
list call uses the empty selector. -/
theorem C4_pvc_cleanup_deletes_unlabelled :
    selectorMatches [{ key := databaseLabel, value := sampleDb.name }] samplePVCForeign = false
    ∧ (DeleteDatabasePVC sampleDb sampleStDeleting).2.cluster.pvcs = [] := by
  constructor <;> rfl

/-- C3 witness: the amended marker-removal ordering instantiated at the
deleting sample record. -/
theorem C3_marker_removal_witness :
    sampleStDeleting.trace = []
    ∧ ((Ev.finalizerRemoved ∈
          (ReconcileDatabaseFinalizer sampleDbDeleting sampleStDeleting).2.trace →
        (ReconcileDatabaseFinalizer sampleDbDeleting sampleStDeleting).2.trace
          = [Ev.pvcCleanupDone, Ev.finalizerRemoved])
       ∧ (ReconcileDatabaseFinalizer sampleDbDeleting sampleStDeleting).2.cluster.secrets
           = sampleStDeleting.cluster.secrets) :=
  ⟨rfl, C3_marker_removal_after_pvc_cleanup sampleDbDeleting sampleStDeleting rfl⟩

/-- C5: with the authentication flag set, a successful (fault-free) run of
the secret reconciler leaves the canonical secret in place, owner-referenced
to the record, and a pre-existing secret is returned untouched — in
particular its key material is never rotated. -/
theorem C5_auth_secret_kept (db : Database) (st : St)
    (hauth : db.spec.auth = true) (hf : st.faults = [])
    (hOwn : ∀ s0, findSecret st.cluster db.ns (GetAuthSecretName db) = some s0 →
        ownerRefConst db ∈ s0.ownerReferences) :
    ∃ s, findSecret (ReconcileDatabaseSecrets db st).2.cluster db.ns (GetAuthSecretName db)
          = some s
      ∧ (ReconcileDatabaseSecrets db st).1 = Except.ok (some s)
      ∧ ownerRefConst db ∈ s.ownerReferences
      ∧ (∀ s0, findSecret st.cluster db.ns (GetAuthSecretName db) = some s0 → s = s0) := by
  obtain ⟨⟨d, se, ss, sv, ig, pv⟩, fa, tr, sw, cp, kc⟩ := st
  simp only [] at hf hOwn
  subst hf
  cases hfind : findSecret ⟨d, se, ss, sv, ig, pv⟩ db.ns (GetAuthSecretName db) with
  | some s0 =>
      have heq : ReconcileDatabaseSecrets db ⟨⟨d, se, ss, sv, ig, pv⟩, [], tr, sw, cp, kc⟩
          = (Except.ok (some s0),
             ⟨⟨d, se, ss, sv, ig, pv⟩, [], tr ++ [Ev.authSecretRec], sw, cp, kc⟩) := by
        unfold ReconcileDatabaseSecrets
        simp [hfind, hauth]
      rw [heq]
      refine ⟨s0, hfind, rfl, hOwn s0 hfind, ?_⟩
      intro s1 h1
      cases h1
      rfl
  | none =>
      have heq : ReconcileDatabaseSecrets db ⟨⟨d, se, ss, sv, ig, pv⟩, [], tr, sw, cp, kc⟩
          = (Except.ok (some (freshAuthSecret db kc)),
             ⟨⟨d, se ++ [freshAuthSecret db kc], ss, sv, ig, pv⟩, [],
              tr ++ [Ev.authSecretRec], sw, cp, kc + 1⟩) := by
        unfold ReconcileDatabaseSecrets
        simp [hfind, hauth, generateAsymmetricKeys, writeFallible, popFault,
              clusterCreateSecret, freshAuthSecret]
      rw [heq]
      refine ⟨freshAuthSecret db kc, ?_, rfl, ?_, ?_⟩
      · exact find_append_singleton_of_none hfind _ (secrets_keyed db kc)
      · simp [freshAuthSecret]
      · intro s1 h1
        cases h1

/-- C6: with the authentication flag off, a successful (fault-free) run of
the secret reconciler returns nil, leaves no secret at the canonical name —
deleting a pre-existing one — and is a no-op on the cluster when none
existed. -/
theorem C6_auth_secret_absent (db : Database) (st : St)
    (hauth : db.spec.auth = false) (hf : st.faults = []) :
    (ReconcileDatabaseSecrets db st).1 = Except.ok none
    ∧ findSecret (ReconcileDatabaseSecrets db st).2.cluster db.ns (GetAuthSecretName db) = none
    ∧ (findSecret st.cluster db.ns (GetAuthSecretName db) = none →
        (ReconcileDatabaseSecrets db st).2.cluster = st.cluster) := by
  obtain ⟨⟨d, se, ss, sv, ig, pv⟩, fa, tr, sw, cp, kc⟩ := st
  simp only [] at hf
  subst hf
  cases hfind : findSecret ⟨d, se, ss, sv, ig, pv⟩ db.ns (GetAuthSecretName db) with
  | some s0 =>
      have heq : ReconcileDatabaseSecrets db ⟨⟨d, se, ss, sv, ig, pv⟩, [], tr, sw, cp, kc⟩
          = (Except.ok none,
             ⟨⟨d, se.filter (fun s => !(secretKey db.ns (GetAuthSecretName db) s)),
               ss, sv, ig, pv⟩, [], tr ++ [Ev.authSecretRec], sw, cp, kc⟩) := by
        unfold ReconcileDatabaseSecrets
        simp [hfind, hauth, writeFallible, popFault, clusterDeleteSecret]
      rw [heq]
      refine ⟨rfl, find_filter_not _ _, ?_⟩
      intro h0
      cases h0
  | none =>
      have heq : ReconcileDatabaseSecrets db ⟨⟨d, se, ss, sv, ig, pv⟩, [], tr, sw, cp, kc⟩
          = (Except.ok none,
             ⟨⟨d, se, ss, sv, ig, pv⟩, [], tr ++ [Ev.authSecretRec], sw, cp, kc⟩) := by
        unfold ReconcileDatabaseSecrets
        simp [hfind, hauth]
      rw [heq]
      exact ⟨rfl, hfind, fun _ => rfl⟩

theorem env_filter_dropped (l : List EnvVar) (k : String)
    (hk : k = "SQLD_NODE" ∨ k = "SQLD_AUTH_JWT_KEY") :
    (l.filter (fun e => !(e.name == "SQLD_NODE" || e.name == "SQLD_AUTH_JWT_KEY"))).filter
      (fun e => e.name == k) = [] := by
  rw [List.filter_eq_nil_iff]
  intro a ha
  rw [List.mem_filter] at ha
  have h2 := ha.2
  simp only [Bool.not_eq_true', Bool.or_eq_false_iff, beq_eq_false_iff_ne] at h2
  rcases hk with h | h <;> subst h <;> simp [h2.1, h2.2]

/-- C7: in the constructed primary workload, every user-supplied environment
override whose name is neither SQLD_NODE nor SQLD_AUTH_JWT_KEY is appended to
the container environment, while user overrides for those two reserved names
are dropped: the only SQLD_NODE entry is the generated one, and the only
SQLD_AUTH_JWT_KEY entry is the generated secret reference (present exactly
when auth is on). -/
theorem C7_env_override_precedence (db : Database) :
    (∀ e ∈ db.spec.env, e.name ≠ "SQLD_NODE" → e.name ≠ "SQLD_AUTH_JWT_KEY" →
        e ∈ (ConstructPrimaryStatefulSet db).container.env)
    ∧ (ConstructPrimaryStatefulSet db).container.env.filter (fun e => e.name == "SQLD_NODE")
        = [{ name := "SQLD_NODE", value := "primary", valueFrom := none }]
    ∧ (db.spec.auth = true →
        (ConstructPrimaryStatefulSet db).container.env.filter
            (fun e => e.name == "SQLD_AUTH_JWT_KEY")
          = [{ name := "SQLD_AUTH_JWT_KEY", value := "",
               valueFrom := some (GetAuthSecretName db, "PUBLIC_KEY") }])
    ∧ (db.spec.auth = false →
        (ConstructPrimaryStatefulSet db).container.env.filter
            (fun e => e.name == "SQLD_AUTH_JWT_KEY") = []) := by
  refine ⟨?_, ?_, ?_, ?_⟩
  · intro e he hn1 hn2
    unfold ConstructPrimaryStatefulSet
    cases hauth : db.spec.auth
    · simp only [hauth]
      simp [List.mem_append]
      right
      exact ⟨he, hn1, hn2⟩
    · simp only [hauth]
      simp [List.mem_append]
      right; right
      exact ⟨he, hn1, hn2⟩
  · unfold ConstructPrimaryStatefulSet
    cases hauth : db.spec.auth <;>
      · simp [hauth, List.filter_append]
        intro a _ h1 h2
        exact absurd h1 h2
  · intro hauth
    unfold ConstructPrimaryStatefulSet
    simp [hauth, List.filter_append]
    intro a _ h1 _
    exact h1
  · intro hauth
    unfold ConstructPrimaryStatefulSet
    simp [hauth, List.filter_append]
    intro a _ h1 _
    exact h1

/-- C8: with a fault-free store, the ingress reconciler realises the record
exactly: a nil ingress configuration leaves no ingress at the canonical name
(deleting a pre-existing one, no-op when absent), while a non-nil
configuration leaves the constructed ingress in the store, owner-referenced
to the record, mirroring host, class and TLS, and routing the single prefix
path to the routable service on port 8080. -/
theorem C8_ingress_mirrors_record (db : Database) (st : St)
    (hf : st.faults = []) :
    (db.spec.ingress = none →
        findIngress (ReconcileDatabaseIngress db st).2.cluster db.ns
            (GetDatabaseIngressName db) = none
        ∧ (ReconcileDatabaseIngress db st).1 = Except.ok none
        ∧ (findIngress st.cluster db.ns (GetDatabaseIngressName db) = none →
            (ReconcileDatabaseIngress db st).2.cluster = st.cluster))
    ∧ (∀ icfg, db.spec.ingress = some icfg →
        findIngress (ReconcileDatabaseIngress db st).2.cluster db.ns
            (GetDatabaseIngressName db) = some (ConstructDatabaseIngress db)
        ∧ (ReconcileDatabaseIngress db st).1
            = Except.ok (some (ConstructDatabaseIngress db))
        ∧ (ConstructDatabaseIngress db).ownerReferences = [ownerRefConst db]
        ∧ (ConstructDatabaseIngress db).ingressClassName = icfg.ingressClassName
        ∧ (ConstructDatabaseIngress db).tls = icfg.tls
        ∧ (ConstructDatabaseIngress db).rules
            = [{ host := icfg.host,
                 paths := [{ path := "/", pathType := "Prefix",
                             backendService := GetDatabaseServiceName db false,
                             backendPort := 8080 }] }]) := by
  obtain ⟨⟨d, se, ss, sv, ig, pv⟩, fa, tr, sw, cp, kc⟩ := st
  simp only [] at hf
  subst hf
  constructor
  · intro hcfg
    cases hfind : findIngress ⟨d, se, ss, sv, ig, pv⟩ db.ns (GetDatabaseIngressName db) with
    | none =>
        have heq : ReconcileDatabaseIngress db ⟨⟨d, se, ss, sv, ig, pv⟩, [], tr, sw, cp, kc⟩
            = (Except.ok none,
               ⟨⟨d, se, ss, sv, ig, pv⟩, [], tr ++ [Ev.ingressRec], sw, cp, kc⟩) := by
          unfold ReconcileDatabaseIngress
          simp [hfind, hcfg]
        rw [heq]
        exact ⟨hfind, rfl, fun _ => rfl⟩
    | some x =>
        have heq : ReconcileDatabaseIngress db ⟨⟨d, se, ss, sv, ig, pv⟩, [], tr, sw, cp, kc⟩
            = (Except.ok none,
               ⟨⟨d, se, ss, sv,
                 ig.filter (fun i => !(ingKey db.ns (GetDatabaseIngressName db) i)), pv⟩,
                [], tr ++ [Ev.ingressRec], sw, cp, kc⟩) := by
          unfold ReconcileDatabaseIngress
          simp [hfind, hcfg, writeFallible, popFault, clusterDeleteIngress]
        rw [heq]
        refine ⟨find_filter_not _ _, rfl, ?_⟩
        intro h0
        cases h0
  · intro icfg hcfg
    have hmirror : (ConstructDatabaseIngress db).ownerReferences = [ownerRefConst db]
        ∧ (ConstructDatabaseIngress db).ingressClassName = icfg.ingressClassName
        ∧ (ConstructDatabaseIngress db).tls = icfg.tls
        ∧ (ConstructDatabaseIngress db).rules
            = [{ host := icfg.host,
                 paths := [{ path := "/", pathType := "Prefix",
                             backendService := GetDatabaseServiceName db false,
                             backendPort := 8080 }] }] := by
      refine ⟨rfl, ?_, ?_, ?_⟩ <;> simp [ConstructDatabaseIngress, hcfg, Option.join]
    cases hfind : findIngress ⟨d, se, ss, sv, ig, pv⟩ db.ns (GetDatabaseIngressName db) with
    | none =>
        have happ : (ig ++ [ConstructDatabaseIngress db]).find?
            (ingKey db.ns (GetDatabaseIngressName db)) = some (ConstructDatabaseIngress db) :=
          find_append_singleton_of_none hfind _ (ing_keyed db)
        have heq : ReconcileDatabaseIngress db ⟨⟨d, se, ss, sv, ig, pv⟩, [], tr, sw, cp, kc⟩
            = (Except.ok (some (ConstructDatabaseIngress db)),
               ⟨⟨d, se, ss, sv, ig ++ [ConstructDatabaseIngress db], pv⟩,
                [], tr ++ [Ev.ingressRec], sw, cp, kc⟩) := by
          unfold ReconcileDatabaseIngress
          simp [hfind, hcfg, writeFallible, popFault, clusterCreateIngress,
                clusterUpdateIngress, replaceFirst_of_find_self happ]
        rw [heq]
        exact ⟨happ, rfl, hmirror.1, hmirror.2.1, hmirror.2.2.1, hmirror.2.2.2⟩
    | some x =>
        have heq : ReconcileDatabaseIngress db ⟨⟨d, se, ss, sv, ig, pv⟩, [], tr, sw, cp, kc⟩
            = (Except.ok (some (ConstructDatabaseIngress db)),
               ⟨⟨d, se, ss, sv,
                 replaceFirst (ingKey db.ns (GetDatabaseIngressName db))
                   (ConstructDatabaseIngress db) ig, pv⟩,
                [], tr ++ [Ev.ingressRec], sw, cp, kc⟩) := by
          unfold ReconcileDatabaseIngress
          simp [hfind, hcfg, writeFallible, popFault, clusterUpdateIngress]
        rw [heq]
        exact ⟨find_replaceFirst_same hfind (ing_keyed db), rfl,
               hmirror.1, hmirror.2.1, hmirror.2.2.1, hmirror.2.2.2⟩

/-- C1 witness: idempotence instantiated at the sample record and the empty
fault-free store. -/
theorem C1_reconcile_idempotent_witness :
    sampleSt.cluster.database = some sampleDb
    ∧ sampleDb.deletionTimestamp = none
    ∧ sampleSt.faults = []
    ∧ ((Reconcile (Reconcile sampleSt).2).2.cluster = (Reconcile sampleSt).2.cluster
       ∧ (Reconcile (Reconcile sampleSt).2).2.statusWrites
           = (Reconcile sampleSt).2.statusWrites
       ∧ (Reconcile (Reconcile sampleSt).2).1 = Except.ok false) :=
  ⟨rfl, rfl, rfl, C1_reconcile_idempotent sampleSt sampleDb rfl rfl rfl⟩

/-- C5 witness: the secret reconciler instantiated at the sample record with
a pre-existing externally keyed auth secret. -/
theorem C5_auth_secret_kept_witness :
    sampleDb.spec.auth = true
    ∧ sampleStWithSecret.faults = []
    ∧ (∀ s0, findSecret sampleStWithSecret.cluster sampleDb.ns (GetAuthSecretName sampleDb)
          = some s0 → ownerRefConst sampleDb ∈ s0.ownerReferences)
    ∧ (∃ s, findSecret (ReconcileDatabaseSecrets sampleDb sampleStWithSecret).2.cluster
            sampleDb.ns (GetAuthSecretName sampleDb) = some s
        ∧ (ReconcileDatabaseSecrets sampleDb sampleStWithSecret).1 = Except.ok (some s)
        ∧ ownerRefConst sampleDb ∈ s.ownerReferences
        ∧ (∀ s0, findSecret sampleStWithSecret.cluster sampleDb.ns (GetAuthSecretName sampleDb)
              = some s0 → s = s0)) := by
  have hOwn : ∀ s0, findSecret sampleStWithSecret.cluster sampleDb.ns
      (GetAuthSecretName sampleDb) = some s0 → ownerRefConst sampleDb ∈ s0.ownerReferences := by
    intro s0 h0
    have h1 : sampleSecret = s0 :=
      Option.some.inj ((rfl : findSecret sampleStWithSecret.cluster sampleDb.ns
        (GetAuthSecretName sampleDb) = some sampleSecret).symm.trans h0)
    subst h1
    decide
  exact ⟨rfl, rfl, hOwn, C5_auth_secret_kept sampleDb sampleStWithSecret rfl rfl hOwn⟩

/-- C6 witness: the secret reconciler instantiated at the sample record with
the authentication flag off, over the empty store. -/
theorem C6_auth_secret_absent_witness :
    sampleDbNoAuth.spec.auth = false
    ∧ sampleSt.faults = []
    ∧ ((ReconcileDatabaseSecrets sampleDbNoAuth sampleSt).1 = Except.ok none
       ∧ findSecret (ReconcileDatabaseSecrets sampleDbNoAuth sampleSt).2.cluster
           sampleDbNoAuth.ns (GetAuthSecretName sampleDbNoAuth) = none
       ∧ (findSecret sampleSt.cluster sampleDbNoAuth.ns (GetAuthSecretName sampleDbNoAuth)
             = none →
           (ReconcileDatabaseSecrets sampleDbNoAuth sampleSt).2.cluster
             = sampleSt.cluster)) :=
  ⟨rfl, rfl, C6_auth_secret_absent sampleDbNoAuth sampleSt rfl rfl⟩

/-- C7 witness: override precedence instantiated at the sample record — the
only SQLD_NODE entry of the constructed container environment is the
generated node-role marker. -/
theorem C7_env_override_precedence_witness :
    (ConstructPrimaryStatefulSet sampleDb).container.env.filter
        (fun e => e.name == "SQLD_NODE")
      = [{ name := "SQLD_NODE", value := "primary", valueFrom := none }] :=
  (C7_env_override_precedence sampleDb).2.1

/-- C8 witness: the ingress reconciler instantiated at the sample record
(with a configured ingress) over the empty fault-free store. -/
theorem C8_ingress_mirrors_record_witness :
    sampleSt.faults = []
    ∧ ((sampleDb.spec.ingress = none →
          findIngress (ReconcileDatabaseIngress sampleDb sampleSt).2.cluster sampleDb.ns
              (GetDatabaseIngressName sampleDb) = none
          ∧ (ReconcileDatabaseIngress sampleDb sampleSt).1 = Except.ok none
          ∧ (findIngress sampleSt.cluster sampleDb.ns (GetDatabaseIngressName sampleDb)
                = none →
              (ReconcileDatabaseIngress sampleDb sampleSt).2.cluster = sampleSt.cluster))
       ∧ (∀ icfg, sampleDb.spec.ingress = some icfg →
           findIngress (ReconcileDatabaseIngress sampleDb sampleSt).2.cluster sampleDb.ns
               (GetDatabaseIngressName sampleDb) = some (ConstructDatabaseIngress sampleDb)
           ∧ (ReconcileDatabaseIngress sampleDb sampleSt).1
               = Except.ok (some (ConstructDatabaseIngress sampleDb))
           ∧ (ConstructDatabaseIngress sampleDb).ownerReferences = [ownerRefConst sampleDb]
           ∧ (ConstructDatabaseIngress sampleDb).ingressClassName = icfg.ingressClassName
           ∧ (ConstructDatabaseIngress sampleDb).tls = icfg.tls
           ∧ (ConstructDatabaseIngress sampleDb).rules
               = [{ host := icfg.host,
                    paths := [{ path := "/", pathType := "Prefix",
                                backendService := GetDatabaseServiceName sampleDb false,
                                backendPort := 8080 }] }])) :=
  ⟨rfl, C8_ingress_mirrors_record sampleDb sampleSt rfl⟩

/-- C9 witness: the fixed child order instantiated at the sample record over
the empty fault-free store. -/
theorem C9_children_fixed_order_witness :
    sampleSt.cluster.database = some sampleDb
    ∧ sampleDb.deletionTimestamp = none
    ∧ sampleSt.trace = []
    ∧ ((∃ t u, (Reconcile sampleSt).2.trace = t
          ∧ t ++ u = [Ev.authSecretRec, Ev.statefulSetRec, Ev.serviceRec, Ev.ingressRec])
       ∧ ((Reconcile sampleSt).1 = Except.ok false →
           (Reconcile sampleSt).2.trace
             = [Ev.authSecretRec, Ev.statefulSetRec, Ev.serviceRec, Ev.ingressRec])) :=
  ⟨rfl, rfl, rfl, C9_children_fixed_order sampleSt sampleDb rfl rfl rfl⟩

/-- C10 witness: a single injected stale-version conflict on the first
status persist makes Reconcile return a requeue signal with no error. -/
theorem C10_conflict_requeue_witness :
    sampleStConflict.conflictOnPersist = false
    ∧ (Reconcile sampleStConflict).2.conflictOnPersist = true
    ∧ (Reconcile sampleStConflict).1 = Except.ok true :=
  ⟨rfl, rfl, C10_conflict_requeue sampleStConflict rfl rfl⟩
